import Mathlib

/-!
# ftx-api: request construction, signing and response classification

A shallow embedding of `client.go` (`callAPI`, `parsedequest`, `sign`) and of the
endpoint wrappers (`*_service.go`), followed by the properties proved about them.

Modelling conventions

* a Go `string` and a Go `[]byte` holding text are Lean `String`s; their bytes
  are the UTF-8 encoding (`utf8Bytes`);
* a Go `map[string]T` is an association list with distinct keys, the list order
  standing for one iteration order of the map;
* a Go `error` is identified by its message (`GoError`);
* a Go result pair `(value, error)` is a Lean pair of options, `none` for `nil`;
* 32-bit words are natural numbers reduced modulo `2 ^ 32`;
* the standard-library functions whose exact behaviour the code only passes
  through (`url.Parse`, `URL.Query`, `json.Unmarshal`, the `%q` verb) are the
  fields of `StdLib`; every general theorem holds for all of them, and `goLib`
  is the instance used to run the code on concrete inputs.
-/

namespace FtxApi

/-! ## Go values -/

/-- A Go `error` value, identified by its message. -/
structure GoError where
  msg : String
deriving DecidableEq, Repr

deriving instance DecidableEq for Except

/-- The call `errors.New(msg)`. -/
def errorsNew (msg : String) : GoError := ⟨msg⟩

/-- The verb `%d` of `fmt` on an integer: its decimal representation. -/
def fmtD (n : Int) : String := toString n

/-- The update `m[k] = v` of a Go map. -/
def mapSet {β : Type} : List (String × β) → String → β → List (String × β)
  | [], k, v => [(k, v)]
  | (k0, v0) :: rest, k, v =>
    if k0 = k then (k, v) :: rest else (k0, v0) :: mapSet rest k v

/-- The lookup `m[k]` of a Go map with the "comma ok" flag: `none` when `k` is absent. -/
def mapGet? {β : Type} : List (String × β) → String → Option β
  | [], _ => none
  | (k0, v0) :: rest, k => if k0 = k then some v0 else mapGet? rest k

/-- The lookup `m[k]` of a `map[string][]string`: the nil slice when `k` is absent. -/
def mapGet (m : List (String × List String)) (k : String) : List String :=
  (mapGet? m k).getD []

/-! ## net/textproto and net/http headers -/

/-- Bytes allowed in an HTTP token (`httpguts.IsTokenRune`, `validHeaderFieldByte`). -/
def isTokenChar (c : Char) : Bool :=
  c.isAlphanum || "!#$%&'*+-.^_`|~".toList.contains c

/-- The loop of `canonicalMIMEHeaderKey`: upper case at the start and after a dash,
lower case elsewhere. -/
def canonicalLetters : Bool → List Char → List Char
  | _, [] => []
  | upper, c :: cs =>
    let d := if upper && c.isLower then c.toUpper
             else if !upper && c.isUpper then c.toLower else c
    d :: canonicalLetters (d == '-') cs

/-- `textproto.CanonicalMIMEHeaderKey`: a key with a byte that is no token byte is
returned unchanged, any other key is canonicalised. -/
def canonicalMIMEHeaderKey (s : String) : String :=
  if s.toList.all isTokenChar then String.mk (canonicalLetters true s.toList) else s

/-- An `http.Header`: `map[string][]string`. -/
abbrev Header := List (String × List String)

/-- The method `Header.Set`. -/
def Header.Set (h : Header) (key value : String) : Header :=
  mapSet h (canonicalMIMEHeaderKey key) [value]

/-- The method `Header.Values`, `none` when the header is absent. -/
def Header.Values (h : Header) (key : String) : Option (List String) :=
  mapGet? h (canonicalMIMEHeaderKey key)

/-! ## net/url -/

/-- A `url.Userinfo`. -/
structure Userinfo where
  username : String
  password : Option String
deriving DecidableEq, Repr

/-- A `url.URL`. -/
structure URL where
  Scheme : String
  Opaque : String
  User : Option Userinfo
  Host : String
  Path : String
  RawPath : String
  OmitHost : Bool
  ForceQuery : Bool
  RawQuery : String
  Fragment : String
  RawFragment : String
deriving DecidableEq, Repr

/-- A `url.Values`: `map[string][]string`. -/
abbrev Values := List (String × List String)

/-- The method `Values.Add`: `v[key] = append(v[key], value)`. -/
def Values.Add (v : Values) (key value : String) : Values :=
  mapSet v key (mapGet v key ++ [value])

/-- UTF-8 encoding of a string, as numbers below 256. -/
def utf8Bytes (s : String) : List Nat :=
  (s.toList.flatMap String.utf8EncodeChar).map UInt8.toNat

/-- The table `upperhex` of `net/url`. -/
def upperhex (n : Nat) : Char := "0123456789ABCDEF".toList.getD n '0'

/-- The predicate `shouldEscape(c, encodeQueryComponent)` of `net/url`: everything
but letters, digits and `- _ . ~` is escaped. -/
def shouldEscapeQueryComponent (c : Char) : Bool :=
  !(c.isAlphanum || c == '-' || c == '_' || c == '.' || c == '~')

/-- One character of `url.QueryEscape`: a space becomes `+`, a byte to escape
becomes `%XX`. -/
def queryEscapeChar (c : Char) : List Char :=
  if c == ' ' then ['+']
  else if shouldEscapeQueryComponent c then
    (String.utf8EncodeChar c).flatMap fun b => ['%', upperhex (b.toNat / 16), upperhex (b.toNat % 16)]
  else [c]

/-- The function `url.QueryEscape`. -/
def QueryEscape (s : String) : String := String.mk (s.toList.flatMap queryEscapeChar)

/-- The order `<=` of Go strings: lexicographic on the bytes, which on UTF-8 text
is lexicographic on the code points. -/
def keyLE (a b : String) : Prop := a.toList ≤ b.toList

instance keyLE.decidable : DecidableRel keyLE :=
  fun a b => inferInstanceAs (Decidable (a.toList ≤ b.toList))

/-- The sorted key list of `Values.Encode`: `slices.Sort(keys)`, byte-wise
lexicographic order (which on UTF-8 text is the order of the code points). -/
def sortedKeys (v : Values) : List String :=
  (v.map Prod.fst).insertionSort keyLE

/-- One pass of the inner loop of `Values.Encode`: an ampersand when the buffer
is not empty, then `key=value`. -/
def encodeWrite (keyEscaped : String) (buf : String) (value : String) : String :=
  (if buf.length > 0 then buf ++ "&" else buf) ++ keyEscaped ++ "=" ++ QueryEscape value

/-- The method `Values.Encode`. -/
def Values.Encode (v : Values) : String :=
  if v.length = 0 then ""
  else (sortedKeys v).foldl (fun buf k => (mapGet v k).foldl (encodeWrite (QueryEscape k)) buf) ""

/-! ## The standard library as a parameter -/

/-- The envelope head `basicResponse` shared by every response type: the fields
the code reads are `Success` and `Error`. -/
structure basicResponse where
  Success : Bool
  Error : String
deriving DecidableEq, Repr

/-- Standard-library functions the client calls and whose result it only passes on. -/
structure StdLib where
  /-- The function `url.Parse`. -/
  urlParse : String → Except GoError URL
  /-- The method `URL.Query` on a raw query: `url.ParseQuery` with its error dropped. -/
  parseQuery : String → Values
  /-- The error `fmt.Errorf("net/http: invalid method %q", method)`. -/
  invalidMethod : String → GoError
  /-- The call `json.Unmarshal(data, &v)` for `v` of type `basicResponse`. -/
  unmarshalBasic : String → Except GoError basicResponse

/-! ## net/http requests -/

/-- The fields of an `http.Request` that `http.NewRequest` fills from its arguments. -/
structure Request where
  Method : String
  URL : URL
  Header : Header
  Body : String
  ContentLength : Nat
  Host : String
deriving DecidableEq, Repr

/-- The constant `http.MethodGet`. -/
def MethodGet : String := "GET"

/-- The constant `http.MethodPost`. -/
def MethodPost : String := "POST"

/-- The constant `http.StatusOK`. -/
def StatusOK : Int := 200

/-- The check `validMethod` of `net/http`: a non-empty run of token bytes. -/
def validMethod (method : String) : Bool :=
  method.length > 0 && method.toList.all isTokenChar

/-- The helper `removeEmptyPort` of `net/http`: a host ending in a colon loses it. -/
def removeEmptyPort (host : String) : String :=
  match host.toList.reverse with
  | ':' :: rest => String.mk rest.reverse
  | _ => host

/-- The function `http.NewRequest(method, url, bytes.NewBuffer(body))`. -/
def httpNewRequest (lib : StdLib) (method url body : String) : Except GoError Request :=
  let method := if method = "" then "GET" else method
  if !validMethod method then .error (lib.invalidMethod method)
  else
    match lib.urlParse url with
    | .error err => .error err
    | .ok u =>
      let u := { u with Host := removeEmptyPort u.Host }
      .ok { Method := method, URL := u, Header := [], Body := body,
            ContentLength := body.utf8ByteSize, Host := u.Host }

/-! ## crypto/sha256, crypto/hmac, encoding/hex -/

/-- The modulus of 32-bit words. -/
def word32 : Nat := 4294967296

/-- Rotation of a 32-bit word to the right (`bits.RotateLeft32(x, -n)`). -/
def rotr (x n : Nat) : Nat := ((x >>> n) ||| (x <<< (32 - n))) % word32

/-- The round constants `_K` of SHA-256 (FIPS 180-4, section 4.2.2), in decimal. -/
def sha256K : List Nat := [
  1116352408, 1899447441, 3049323471, 3921009573, 961987163, 1508970993, 2453635748, 2870763221,
  3624381080, 310598401, 607225278, 1426881987, 1925078388, 2162078206, 2614888103, 3248222580,
  3835390401, 4022224774, 264347078, 604807628, 770255983, 1249150122, 1555081692, 1996064986,
  2554220882, 2821834349, 2952996808, 3210313671, 3336571891, 3584528711, 113926993, 338241895,
  666307205, 773529912, 1294757372, 1396182291, 1695183700, 1986661051, 2177026350, 2456956037,
  2730485921, 2820302411, 3259730800, 3345764771, 3516065817, 3600352804, 4094571909, 275423344,
  430227734, 506948616, 659060556, 883997877, 958139571, 1322822218, 1537002063, 1747873779,
  1955562222, 2024104815, 2227730452, 2361852424, 2428436474, 2756734187, 3204031479, 3329325298]

/-- The chaining value of SHA-256: eight 32-bit words. -/
structure Sha256State where
  h0 : Nat
  h1 : Nat
  h2 : Nat
  h3 : Nat
  h4 : Nat
  h5 : Nat
  h6 : Nat
  h7 : Nat
deriving DecidableEq, Repr

/-- The initial chaining value of SHA-256 (FIPS 180-4, section 5.3.3), in decimal. -/
def sha256Init : Sha256State :=
  ⟨1779033703, 3144134277, 1013904242, 2773480762, 1359893119, 2600822924, 528734635, 1541459225⟩

/-- Padding of SHA-256: the byte `0x80`, zero bytes up to 56 modulo 64, and the
length in bits as 8 big-endian bytes. -/
def sha256Pad (msg : List Nat) : List Nat :=
  let len := msg.length
  let bits := len * 8
  msg ++ [0x80] ++ List.replicate ((64 - (len + 9) % 64) % 64) 0 ++
    [bits >>> 56 % 256, bits >>> 48 % 256, bits >>> 40 % 256, bits >>> 32 % 256,
     bits >>> 24 % 256, bits >>> 16 % 256, bits >>> 8 % 256, bits % 256]

/-- Cuts a byte list into blocks of 64 bytes (`fuel` bounds the number of blocks). -/
def sha256Blocks : Nat → List Nat → List (List Nat)
  | 0, _ => []
  | fuel + 1, l =>
    match l with
    | [] => []
    | _ :: _ => l.take 64 :: sha256Blocks fuel (l.drop 64)

/-- Big-endian 32-bit words of a block. -/
def beWords : List Nat → List Nat
  | a :: b :: c :: d :: rest => (a <<< 24 ||| b <<< 16 ||| c <<< 8 ||| d) :: beWords rest
  | _ => []

/-- The message schedule, newest word first: `n` more words are added. -/
def sha256Schedule : Nat → List Nat → List Nat
  | 0, w => w
  | n + 1, w =>
    let v1 := w.getD 1 0
    let v2 := w.getD 14 0
    let t1 := rotr v1 17 ^^^ rotr v1 19 ^^^ (v1 >>> 10)
    let t2 := rotr v2 7 ^^^ rotr v2 18 ^^^ (v2 >>> 3)
    sha256Schedule n (((t1 + w.getD 6 0 + t2 + w.getD 15 0) % word32) :: w)

/-- One round of the SHA-256 compression function, on a constant and a schedule word. -/
def sha256Round (s : Sha256State) (kw : Nat × Nat) : Sha256State :=
  let t1 := (s.h7 + (rotr s.h4 6 ^^^ rotr s.h4 11 ^^^ rotr s.h4 25)
    + ((s.h4 &&& s.h5) ^^^ ((s.h4 ^^^ 0xffffffff) &&& s.h6)) + kw.1 + kw.2) % word32
  let t2 := ((rotr s.h0 2 ^^^ rotr s.h0 13 ^^^ rotr s.h0 22)
    + ((s.h0 &&& s.h1) ^^^ (s.h0 &&& s.h2) ^^^ (s.h1 &&& s.h2))) % word32
  ⟨(t1 + t2) % word32, s.h0, s.h1, s.h2, (s.h3 + t1) % word32, s.h4, s.h5, s.h6⟩

/-- The SHA-256 compression function on one 64-byte block. -/
def sha256Block (s : Sha256State) (p : List Nat) : Sha256State :=
  let w := (sha256Schedule 48 (beWords p).reverse).reverse
  let t := (sha256K.zip w).foldl sha256Round s
  ⟨(s.h0 + t.h0) % word32, (s.h1 + t.h1) % word32, (s.h2 + t.h2) % word32,
   (s.h3 + t.h3) % word32, (s.h4 + t.h4) % word32, (s.h5 + t.h5) % word32,
   (s.h6 + t.h6) % word32, (s.h7 + t.h7) % word32⟩

/-- The four big-endian bytes of a 32-bit word. -/
def beBytes (x : Nat) : List Nat := [x >>> 24 % 256, x >>> 16 % 256, x >>> 8 % 256, x % 256]

/-- The function `sha256.Sum256`: the 32-byte SHA-256 digest of a byte list. -/
def sha256Sum (msg : List Nat) : List Nat :=
  let p := sha256Pad msg
  let d := (sha256Blocks p.length p).foldl sha256Block sha256Init
  beBytes d.h0 ++ beBytes d.h1 ++ beBytes d.h2 ++ beBytes d.h3 ++
    beBytes d.h4 ++ beBytes d.h5 ++ beBytes d.h6 ++ beBytes d.h7

/-- A `hash.Hash`: its digest function, its block size and the bytes written so far. -/
structure GoHash where
  digest : List Nat → List Nat
  blockSize : Nat
  written : List Nat

/-- The method `Write` of a hash: the bytes are appended to what was written. -/
def GoHash.Write (h : GoHash) (p : List Nat) : GoHash := { h with written := h.written ++ p }

/-- The method `Sum` of a hash: the digest of what was written, appended to `b`. -/
def GoHash.Sum (h : GoHash) (b : List Nat) : List Nat := b ++ h.digest h.written

/-- The method `Reset` of a hash. -/
def GoHash.Reset (h : GoHash) : GoHash := { h with written := [] }

/-- The method `BlockSize` of a hash. -/
def GoHash.BlockSize (h : GoHash) : Nat := h.blockSize

/-- The constructor `sha256.New`: a fresh SHA-256 hash, with blocks of 64 bytes. -/
def sha256New : GoHash := { digest := sha256Sum, blockSize := 64, written := [] }

/-- The builtin `copy(dst, src)`: as many bytes as both slices hold are overwritten. -/
def goCopy (dst src : List Nat) : List Nat := src.take dst.length ++ dst.drop src.length

/-- The state of `crypto/hmac`: the two pads and the two hashes. -/
structure Hmac where
  opad : List Nat
  ipad : List Nat
  outer : GoHash
  inner : GoHash

/-- The function `hmac.New(h, key)`, `newHash` being the hash `h()` makes: a key
longer than a block is replaced by its digest, the key is copied into two zeroed
blocks, which are xored with `0x36` and `0x5c`, and the inner pad is written to the
inner hash. -/
def hmacNew (newHash : GoHash) (key : List Nat) : Hmac :=
  let outer := newHash
  let inner := newHash
  let blocksize := inner.BlockSize
  let outer := if key.length > blocksize then outer.Write key else outer
  let key := if key.length > blocksize then outer.Sum [] else key
  let ipad := (goCopy (List.replicate blocksize 0) key).map (· ^^^ 0x36)
  let opad := (goCopy (List.replicate blocksize 0) key).map (· ^^^ 0x5c)
  { opad := opad, ipad := ipad, outer := outer, inner := inner.Write ipad }

/-- The method `Write` of an HMAC: it writes to the inner hash. -/
def Hmac.Write (h : Hmac) (p : List Nat) : Hmac := { h with inner := h.inner.Write p }

/-- The method `Sum` of an HMAC: the inner digest is appended to `b`, the outer hash
is reset and fed the outer pad and the inner digest, and its digest is appended to
the first `len(b)` bytes. -/
def Hmac.Sum (h : Hmac) (b : List Nat) : List Nat :=
  let origLen := b.length
  let b := h.inner.Sum b
  let outer := h.outer.Reset
  let outer := outer.Write h.opad
  let outer := outer.Write (b.drop origLen)
  outer.Sum (b.take origLen)

/-- The table `hextable` of `encoding/hex`. -/
def hextable (n : Nat) : Char := "0123456789abcdef".toList.getD n '0'

/-- The function `hex.EncodeToString`: two digits per byte, high nibble first. -/
def hexEncodeToString (src : List Nat) : String :=
  String.mk (src.flatMap fun b => [hextable (b / 16 % 16), hextable (b % 16)])

/-! ## client.go -/

/-- The struct `Client`: the fields the request pipeline reads (the logger and the
transport handle are left out, the transport being an argument of `callAPI`). -/
structure Client where
  apiKey : String
  apiSecret : String
  baseURL : String
  subAccount : Option String
deriving DecidableEq, Repr

/-- The constant `DefaultRestAPIEndpoint`. -/
def DefaultRestAPIEndpoint : String := "https://ftx.com/api"

/-- The request descriptor `request`: the fields `parsedequest` reads. `params`
lists the entries of the Go map in one iteration order. -/
structure request where
  httpMethod : String
  endpoint : String
  needSigned : Bool
  params : List (String × String)
  body : String
deriving DecidableEq, Repr

/-- The sentinel `ErrorRateLimit`. -/
def ErrorRateLimit : GoError := errorsNew "error_rate_limit"

/-- The sentinel `OrderAlreadyClosed`. -/
def OrderAlreadyClosed : GoError := errorsNew "order_already_closed"

/-- The sentinel `OrderAlreadyQueued`. -/
def OrderAlreadyQueued : GoError := errorsNew "order_already_queued_for_cancellation"

/-- The method `Client.sign`: hex of the HMAC-SHA-256 of the payload under the secret. -/
def Client.sign (c : Client) (payload : String) : String :=
  let mac := hmacNew sha256New (utf8Bytes c.apiSecret)
  let mac := mac.Write (utf8Bytes payload)
  hexEncodeToString (mac.Sum [])

/-- The string `parsedequest` builds in its `needSigned` branch and hands to `sign`. -/
def signPayload (req : Request) (r : request) (nonce : String) : String :=
  let payload := nonce ++ req.Method ++ req.URL.Path
  let payload := if req.URL.RawQuery ≠ "" then payload ++ ("?" ++ req.URL.RawQuery) else payload
  let payload := if r.body.utf8ByteSize > 0 then payload ++ r.body else payload
  payload

/-- The method `Client.parsedequest`, returning next to the built request the
string that was handed to `sign` (`none` when nothing was signed). `now` is the
value of `timeToTimestampMS(time.Now().UTC())`. -/
def Client.parsedequestTrace (lib : StdLib) (c : Client) (r : request) (now : Int) :
    Except GoError (Request × Option String) :=
  match httpNewRequest lib r.httpMethod (c.baseURL ++ "/" ++ r.endpoint) r.body with
  | .error err => .error err
  | .ok req =>
    let req := if r.httpMethod ≠ MethodGet
      then { req with Header := req.Header.Set "Content-Type" "application/json" } else req
    let query := r.params.foldl (fun q kv => Values.Add q kv.1 kv.2) (lib.parseQuery req.URL.RawQuery)
    let req := { req with URL := { req.URL with RawQuery := Values.Encode query } }
    let signed : Request × Option String :=
      if r.needSigned then
        let nonce := fmtD now
        let payload := signPayload req r nonce
        let req := { req with Header := req.Header.Set "FTX-KEY" c.apiKey }
        let req := { req with Header := req.Header.Set "FTX-TS" nonce }
        let req := { req with Header := req.Header.Set "FTX-SIGN" (c.sign payload) }
        (req, some payload)
      else (req, none)
    let req := signed.1
    let req := match c.subAccount with
      | some sub => { req with Header := req.Header.Set "FTX-SUBACCOUNT" sub }
      | none => req
    .ok (req, signed.2)

/-- The method `Client.parsedequest`. -/
def Client.parsedequest (lib : StdLib) (c : Client) (r : request) (now : Int) :
    Except GoError Request :=
  match c.parsedequestTrace lib r now with
  | .error err => .error err
  | .ok out => .ok out.1

/-- An `http.Response` as `callAPI` sees it: the status code and the outcome of
`ioutil.ReadAll(resp.Body)`. -/
structure Response where
  StatusCode : Int
  Body : Except GoError String

/-- The method `Client.callAPI`. `httpDo` is `c.httpClient.Do`. -/
def Client.callAPI (lib : StdLib) (httpDo : Request → Except GoError Response)
    (c : Client) (r : request) (now : Int) : Option String × Option GoError :=
  match c.parsedequest lib r now with
  | .error err => (none, some err)
  | .ok req =>
    match httpDo req with
    | .error err => (none, some err)
    | .ok resp =>
      if resp.StatusCode = 429 then (none, some ErrorRateLimit)
      else
        match resp.Body with
        | .error _ => (none, some (errorsNew "failed to read body"))
        | .ok respBody =>
          if resp.StatusCode ≠ StatusOK then
            match lib.unmarshalBasic respBody with
            | .error _ =>
              (none, some (errorsNew ("unexpected status code = " ++ fmtD resp.StatusCode)))
            | .ok respData =>
              if respData.Error = "Order already closed" then (none, some OrderAlreadyClosed)
              else if respData.Error = "Order already queued for cancellation" then
                (none, some OrderAlreadyQueued)
              else
                (none, some (errorsNew ("unexpected status code = " ++ fmtD resp.StatusCode
                  ++ ", error = " ++ respData.Error)))
          else (some respBody, none)

/-! ## The endpoint wrappers -/

/-- Modelled from the spec: the constructor `newRequest` is not among the sources.
A request descriptor is made from the HTTP verb, the path and the authentication
flag, with no query parameters and no body. -/
def newRequest (httpMethod endpoint : String) (needSigned : Bool) : request :=
  { httpMethod := httpMethod, endpoint := endpoint, needSigned := needSigned,
    params := [], body := "" }

/-- Modelled from the spec: the setter `setParam` is not among the sources. It
stores one entry in the map of query parameters. -/
def request.setParam (r : request) (key value : String) : request :=
  { r with params := mapSet r.params key value }

/-- Modelled from the spec: the setter `setBody` is not among the sources. It
stores the body bytes. -/
def request.setBody (r : request) (body : String) : request :=
  { r with body := body }

/-- A response type `XResponse`: the embedded `basicResponse` and a `Result` field
that is a slice, a pointer or a map (`none` is Go's `nil`). -/
structure TypedResponse (T : Type) extends basicResponse where
  Result : Option T
deriving DecidableEq

/-- The struct `GetMarketsService`. -/
structure GetMarketsService where
  c : Client

/-- The method `GetMarketsService.Do`. -/
def GetMarketsService.Do {Market : Type} (lib : StdLib)
    (httpDo : Request → Except GoError Response)
    (unmarshal : String → Except GoError (TypedResponse (List Market)))
    (s : GetMarketsService) (now : Int) : Option (List Market) × Option GoError :=
  let r := newRequest MethodGet "/markets" false
  match s.c.callAPI lib httpDo r now with
  | (_, some err) => (none, some err)
  | (byteData, none) =>
    match unmarshal (byteData.getD "") with
    | .error err => (none, some err)
    | .ok result =>
      if !result.Success then (none, some (errorsNew result.Error))
      else (result.Result, none)

/-- The struct `GetSingleMarketService`. -/
structure GetSingleMarketService where
  c : Client
  marketName : String

/-- The method `GetSingleMarketService.Do`. `endPointWithFormat` is the helper of
that name, which is not among the sources. -/
def GetSingleMarketService.Do {Market : Type} (lib : StdLib)
    (httpDo : Request → Except GoError Response)
    (endPointWithFormat : String → List String → String)
    (unmarshal : String → Except GoError (TypedResponse Market))
    (s : GetSingleMarketService) (now : Int) : Option Market × Option GoError :=
  let r := newRequest MethodGet (endPointWithFormat "/markets/%s" [s.marketName]) false
  match s.c.callAPI lib httpDo r now with
  | (_, some err) => (none, some err)
  | (byteData, none) =>
    match unmarshal (byteData.getD "") with
    | .error err => (none, some err)
    | .ok result =>
      if !result.Success then (none, some (errorsNew result.Error))
      else (result.Result, none)

/-- The struct `GetFutureStatsService`. -/
structure GetFutureStatsService where
  c : Client
  futureName : String

/-- The method `GetFutureStatsService.Do`. -/
def GetFutureStatsService.Do {FutureStats : Type} (lib : StdLib)
    (httpDo : Request → Except GoError Response)
    (endPointWithFormat : String → List String → String)
    (unmarshal : String → Except GoError (TypedResponse FutureStats))
    (s : GetFutureStatsService) (now : Int) : Option FutureStats × Option GoError :=
  let r := newRequest MethodGet (endPointWithFormat "/futures/%s/stats" [s.futureName]) false
  match s.c.callAPI lib httpDo r now with
  | (_, some err) => (none, some err)
  | (byteData, none) =>
    match unmarshal (byteData.getD "") with
    | .error err => (none, some err)
    | .ok result =>
      if !result.Success then (none, some (errorsNew result.Error))
      else (result.Result, none)

/-- The struct `GetFutureIndexWeightsService`. -/
structure GetFutureIndexWeightsService where
  c : Client
  indexName : String

/-- The method `GetFutureIndexWeightsService.Do`. -/
def GetFutureIndexWeightsService.Do {FutureIndexWeights : Type} (lib : StdLib)
    (httpDo : Request → Except GoError Response)
    (endPointWithFormat : String → List String → String)
    (unmarshal : String → Except GoError (TypedResponse FutureIndexWeights))
    (s : GetFutureIndexWeightsService) (now : Int) :
    Option FutureIndexWeights × Option GoError :=
  let r := newRequest MethodGet (endPointWithFormat "/indexes/%s/weights" [s.indexName]) false
  match s.c.callAPI lib httpDo r now with
  | (_, some err) => (none, some err)
  | (byteData, none) =>
    match unmarshal (byteData.getD "") with
    | .error err => (none, some err)
    | .ok result =>
      if !result.Success then (none, some (errorsNew result.Error))
      else (result.Result, none)

/-- The struct `GetOpenOrdersService`. -/
structure GetOpenOrdersService where
  c : Client
  market : Option String

/-- The method `GetOpenOrdersService.Do`. -/
def GetOpenOrdersService.Do {Order : Type} (lib : StdLib)
    (httpDo : Request → Except GoError Response)
    (unmarshal : String → Except GoError (TypedResponse (List Order)))
    (s : GetOpenOrdersService) (now : Int) : Option (List Order) × Option GoError :=
  let r := newRequest MethodGet "/orders" true
  let r := match s.market with
    | some market => r.setParam "market" market
    | none => r
  match s.c.callAPI lib httpDo r now with
  | (_, some err) => (none, some err)
  | (byteData, none) =>
    match unmarshal (byteData.getD "") with
    | .error err => (none, some err)
    | .ok result =>
      if !result.Success then (none, some (errorsNew result.Error))
      else (result.Result, none)

/-- The struct `PlaceOrderService`, over the type of `PlaceOrderParams`. -/
structure PlaceOrderService (PlaceOrderParams : Type) where
  c : Client
  params : PlaceOrderParams

/-- The method `PlaceOrderService.Do`. `marshal` is `json.Marshal` on
`PlaceOrderParams`. -/
def PlaceOrderService.Do {PlaceOrderParams Order : Type} (lib : StdLib)
    (httpDo : Request → Except GoError Response)
    (endPointWithFormat : String → List String → String)
    (marshal : PlaceOrderParams → Except GoError String)
    (unmarshal : String → Except GoError (TypedResponse Order))
    (s : PlaceOrderService PlaceOrderParams) (now : Int) : Option Order × Option GoError :=
  let r := newRequest MethodPost (endPointWithFormat "/orders" []) true
  match marshal s.params with
  | .error err => (none, some err)
  | .ok body =>
    let r := r.setBody body
    match s.c.callAPI lib httpDo r now with
    | (_, some err) => (none, some err)
    | (byteData, none) =>
    match unmarshal (byteData.getD "") with
    | .error err => (none, some err)
    | .ok result =>
      if !result.Success then (none, some (errorsNew result.Error))
      else (result.Result, none)

/-- The struct `GetBalancesService`. -/
structure GetBalancesService where
  c : Client

/-- The method `GetBalancesService.Do`. -/
def GetBalancesService.Do {Balance : Type} (lib : StdLib)
    (httpDo : Request → Except GoError Response)
    (endPointWithFormat : String → List String → String)
    (unmarshal : String → Except GoError (TypedResponse (List Balance)))
    (s : GetBalancesService) (now : Int) : Option (List Balance) × Option GoError :=
  let r := newRequest MethodGet (endPointWithFormat "/wallet/balances" []) true
  match s.c.callAPI lib httpDo r now with
  | (_, some err) => (none, some err)
  | (byteData, none) =>
    match unmarshal (byteData.getD "") with
    | .error err => (none, some err)
    | .ok result =>
      if !result.Success then (none, some (errorsNew result.Error))
      else (result.Result, none)

/-! ## A reference instance of the standard library

`goLib` follows the Go standard library on the inputs described at each
definition and answers every other input with an error marked `unmodelled`.
It is used to run the code on concrete inputs only. -/

/-- The function `strings.Cut` for a one-byte separator: the text before the first
separator and, when there is one, the text after it. -/
def cutAt (sep : Char) : List Char → List Char × Option (List Char)
  | [] => ([], none)
  | c :: cs =>
    if c = sep then ([], some cs)
    else ((c :: (cutAt sep cs).1), (cutAt sep cs).2)

/-- The loop of `getScheme` of `net/url`: `seen` is the text already read. -/
def getSchemeLoop (raw : List Char) : List Char → List Char →
    Except GoError (List Char × List Char)
  | _, [] => .ok ([], raw)
  | seen, c :: cs =>
    if c.isAlpha then getSchemeLoop raw (seen ++ [c]) cs
    else if c.isDigit || c == '+' || c == '-' || c == '.' then
      if seen = [] then .ok ([], raw) else getSchemeLoop raw (seen ++ [c]) cs
    else if c == ':' then
      if seen = [] then .error (errorsNew "missing protocol scheme") else .ok (seen, cs)
    else .ok ([], raw)

/-- Bytes of a path that `net/url` neither escapes nor unescapes. -/
def isPlainPathChar (c : Char) : Bool :=
  c.isAlphanum || "-_.~$&+,/:;=@".toList.contains c

/-- Bytes of a host name that `goLib` models: letters, digits, dot and dash. -/
def isPlainHostChar (c : Char) : Bool :=
  c.isAlphanum || c == '.' || c == '-'

/-- The error of `goLib` on an input outside the modelled part of the library. -/
def unmodelled (what : String) : GoError := errorsNew ("unmodelled: " ++ what)

/-- The empty `url.URL`. -/
def URL.empty : URL :=
  { Scheme := "", Opaque := "", User := none, Host := "", Path := "", RawPath := "",
    OmitHost := false, ForceQuery := false, RawQuery := "", Fragment := "", RawFragment := "" }

/-- The function `parse` of `net/url` (called with `viaRequest = false`) on a URL
without fragment. Modelled: hosts made of letters, digits, dots and dashes with an
optional numeric port, and paths made of bytes that need no escaping. -/
def goParseNoFragment (raw : List Char) : Except GoError URL :=
  if raw.any (fun c => c.toNat < 32 || c.toNat = 127) then
    .error (errorsNew "net/url: invalid control character in URL")
  else if raw = ['*'] then .ok { URL.empty with Path := "*" }
  else
    match getSchemeLoop raw [] raw with
    | .error err => .error err
    | .ok (scheme, rest) =>
      let scheme := scheme.map Char.toLower
      let forced := rest.getLast? = some '?' && rest.count '?' = 1
      let rest1 := if forced then rest.dropLast else (cutAt '?' rest).1
      let rawQuery := if forced then [] else ((cutAt '?' rest).2).getD []
      let u := { URL.empty with Scheme := String.mk scheme, ForceQuery := forced,
                                RawQuery := String.mk rawQuery }
      if rest1.head? ≠ some '/' && scheme ≠ [] then
        .ok { u with Opaque := String.mk rest1 }
      else if rest1.head? ≠ some '/' && (cutAt '/' rest1).1.contains ':' then
        .error (errorsNew "first path segment in URL cannot contain colon")
      else
        let hasAuthority :=
          (scheme ≠ [] || rest1.take 3 ≠ ['/', '/', '/']) && rest1.take 2 = ['/', '/']
        let authority := if hasAuthority then (rest1.drop 2).takeWhile (· ≠ '/') else []
        let path := if hasAuthority then (rest1.drop 2).dropWhile (· ≠ '/') else rest1
        let host := (cutAt ':' authority).1
        let port := ((cutAt ':' authority).2).getD []
        if !(host.all isPlainHostChar && port.all Char.isDigit) then
          .error (unmodelled "authority")
        else if !path.all isPlainPathChar then .error (unmodelled "path")
        else
          .ok { u with Host := String.mk authority, Path := String.mk path,
                       OmitHost := !hasAuthority && scheme ≠ [] && rest1.head? = some '/' }

/-- The function `url.Parse`. Modelled: URLs accepted by `goParseNoFragment`, with
a fragment made of letters and digits. -/
def goURLParse (rawURL : String) : Except GoError URL :=
  let u := (cutAt '#' rawURL.toList).1
  let frag := ((cutAt '#' rawURL.toList).2).getD []
  match goParseNoFragment u with
  | .error err => .error (errorsNew ("parse " ++ (String.mk u).quote ++ ": " ++ err.msg))
  | .ok url =>
    if frag = [] then .ok url
    else if frag.all Char.isAlphanum then .ok { url with Fragment := String.mk frag }
    else .error (unmodelled "fragment")

/-- Splits a raw query at every ampersand. -/
def splitAmp : List Char → List (List Char)
  | [] => [[]]
  | c :: cs =>
    if c = '&' then [] :: splitAmp cs
    else
      match splitAmp cs with
      | seg :: segs => (c :: seg) :: segs
      | [] => [[c]]

/-- The function `url.QueryUnescape` on text without percent escapes: a plus sign
becomes a space. -/
def plusToSpace (s : List Char) : String :=
  String.mk (s.map fun c => if c = '+' then ' ' else c)

/-- The method `URL.Query`, that is `url.ParseQuery` with its error dropped: the
pairs `key=value` between ampersands; empty pairs and pairs with a semicolon are
left out. Modelled: pairs without percent escapes (a pair with one is left out). -/
def goParseQuery (query : String) : Values :=
  (splitAmp query.toList).foldl (fun m seg =>
    if seg.contains ';' || seg = [] || seg.contains '%' then m
    else Values.Add m (plusToSpace (cutAt '=' seg).1) (plusToSpace (((cutAt '=' seg).2).getD [])))
    []

/-- Removes `pre` from the front of `s`, when it is there. -/
def stripFront : List Char → List Char → Option (List Char)
  | [], s => some s
  | _ :: _, [] => none
  | p :: ps, c :: cs => if p = c then stripFront ps cs else none

/-- A JSON string without escapes and without control characters: the text up to
the closing quote, and the rest. -/
def plainJSONString (s : List Char) : Option (List Char × List Char) :=
  match cutAt '"' s with
  | (text, some rest) =>
    if text.any (fun c => c = Char.ofNat 92 || c.toNat < 32) then none else some (text, rest)
  | (_, none) => none

/-- The `result` member of a flat envelope, as far as it is modelled: absent, or one
of the JSON values `null`, `[]` and the empty object. -/
inductive ResultMember where
  | absent
  | null
  | emptyArray
  | emptyObject
deriving DecidableEq, Repr

/-- The end of a flat envelope: the closing brace, possibly after a `result` member
that is `null`, `[]` or the empty object. -/
def envelopeEnd (s : List Char) : Option ResultMember :=
  if s = ['}'] then some .absent
  else
    match stripFront ",\"result\":".toList s with
    | none => none
    | some rest =>
      if rest = "null\x7d".toList then some .null
      else if rest = "[]\x7d".toList then some .emptyArray
      else if rest = "\x7b\x7d\x7d".toList then some .emptyObject
      else none

/-- Bytes that can start a JSON value, white space included. -/
def isJSONStart (c : Char) : Bool :=
  c.isDigit || " \t\r\n[\"-tfn".toList.contains c || c = Char.ofNat 123

/-- The scan of `encoding/json` over a flat envelope: the members `success` and
`error`, and which `result` member follows. Modelled: the empty input and an input
whose first byte is a letter, a digit or `<` and cannot start a JSON value, which are
syntax errors; and the envelopes `{"success":b}` and `{"success":b,"error":"m"}`,
written without white space, `m` free of escapes, optionally followed by a `result`
member that is `null`, `[]` or the empty object. -/
def goScanEnvelope (data : String) : Except GoError (basicResponse × ResultMember) :=
  match data.toList with
  | [] => .error (errorsNew "unexpected end of JSON input")
  | c :: _ =>
    if (c.isAlphanum || c = '<') && !isJSONStart c then
      .error (errorsNew
        ("invalid character '" ++ String.singleton c ++ "' looking for beginning of value"))
    else
      match stripFront "\x7b\"success\":".toList data.toList with
      | none => .error (unmodelled "json")
      | some rest =>
        let flag : Option (Bool × List Char) :=
          match stripFront "true".toList rest with
          | some r => some (true, r)
          | none => (stripFront "false".toList rest).map fun r => (false, r)
        match flag with
        | none => .error (unmodelled "json")
        | some (b, rest) =>
          match stripFront ",\"error\":\"".toList rest with
          | none =>
            match envelopeEnd rest with
            | none => .error (unmodelled "json")
            | some member => .ok ({ Success := b, Error := "" }, member)
          | some rest =>
            match plainJSONString rest with
            | none => .error (unmodelled "json")
            | some (m, rest) =>
              match envelopeEnd rest with
              | none => .error (unmodelled "json")
              | some member => .ok ({ Success := b, Error := String.mk m }, member)

/-- The call `json.Unmarshal(data, &v)` for `v` of type `basicResponse`, which has no
field for the member `result`: that member is skipped. -/
def goUnmarshalBasic (data : String) : Except GoError basicResponse :=
  match goScanEnvelope data with
  | .error err => .error err
  | .ok out => .ok out.1

/-- The message of a `json.UnmarshalTypeError` inside a struct: a JSON value of kind
`value` met the field `field` of the Go struct `structName`, whose type is
`typeName`. -/
def unmarshalTypeError (value structName field typeName : String) : GoError :=
  errorsNew ("json: cannot unmarshal " ++ value ++ " into Go struct field " ++ structName
    ++ "." ++ field ++ " of type " ++ typeName)

/-- The call `json.Unmarshal(data, &v)` for a response type whose `Result` is a
slice (`MarketsResponse`, `OrdersResponse`, `BalancesResponse`): `null` and a missing
member leave the slice nil, `[]` gives the empty slice, and an object is a type
error, which `json.Unmarshal` returns after it has filled the other fields. -/
def goUnmarshalSliceResult (T : Type) (structName typeName : String) (data : String) :
    Except GoError (TypedResponse (List T)) :=
  match goScanEnvelope data with
  | .error err => .error err
  | .ok (head, member) =>
    match member with
    | .absent => .ok { head with Result := none }
    | .null => .ok { head with Result := none }
    | .emptyArray => .ok { head with Result := some [] }
    | .emptyObject => .error (unmarshalTypeError "object" structName "result" typeName)

/-- The call `json.Unmarshal(data, &v)` for a response type whose `Result` is a
pointer to a struct or a map (`PlaceOrderResponse`, `SingleMarketResponse`,
`FutureStatsResponse`, `FutureIndexWeightsResponse`): `null` and a missing member
leave it nil, the empty object gives `zero` (the struct with every field zero, the
empty map), and an array is a type error, which `json.Unmarshal` returns after it
has filled the other fields. -/
def goUnmarshalObjectResult {T : Type} (zero : T) (structName typeName : String)
    (data : String) : Except GoError (TypedResponse T) :=
  match goScanEnvelope data with
  | .error err => .error err
  | .ok (head, member) =>
    match member with
    | .absent => .ok { head with Result := none }
    | .null => .ok { head with Result := none }
    | .emptyObject => .ok { head with Result := some zero }
    | .emptyArray => .error (unmarshalTypeError "array" structName "result" typeName)

/-- The reference instance of the standard library. -/
def goLib : StdLib :=
  { urlParse := goURLParse
    parseQuery := goParseQuery
    invalidMethod := fun method => errorsNew ("net/http: invalid method " ++ method.quote)
    unmarshalBasic := goUnmarshalBasic }

/-- The loop of `goEndPointWithFormat`. -/
def substituteArgs : List Char → List String → List Char
  | [], _ => []
  | '%' :: 's' :: rest, a :: args => a.toList ++ substituteArgs rest args
  | c :: rest, args => c :: substituteArgs rest args

/-- Modelled from the spec: the helper `endPointWithFormat` is not among the
sources. A path "may contain caller-substituted identifiers": every `%s` of the
format is replaced by the next argument. -/
def goEndPointWithFormat (format : String) (args : List String) : String :=
  String.mk (substituteArgs format.toList args)

/-! ## Concrete inputs -/

/-- A client on the default endpoint, without sub-account. -/
def exampleClient : Client :=
  { apiKey := "key", apiSecret := "secret", baseURL := DefaultRestAPIEndpoint, subAccount := none }

/-- A client on the default endpoint, with a sub-account. -/
def exampleSubClient : Client :=
  { apiKey := "key", apiSecret := "secret", baseURL := DefaultRestAPIEndpoint,
    subAccount := some "main" }

/-- The JSON body of the order-placement scenario. -/
def placeOrderBody : String :=
  "\x7b\"market\":\"BTC/USD\",\"side\":\"buy\",\"price\":100,\"type\":\"limit\",\"size\":1\x7d"

/-- An authenticated POST descriptor with two query parameters and a body. -/
def exampleSignedRequest : request :=
  { httpMethod := "POST", endpoint := "/orders", needSigned := true,
    params := [("market", "BTC/USD"), ("a", "1")], body := "{}" }

/-- The request built from `exampleSignedRequest` by `exampleSubClient` at
`now = 1700000000000`. -/
def exampleSignedBuilt : Request :=
  { Method := "POST",
    URL := { URL.empty with Scheme := "https", Host := "ftx.com", Path := "/api//orders",
                            RawQuery := "a=1&market=BTC%2FUSD" },
    Header := [("Content-Type", ["application/json"]), ("Ftx-Key", ["key"]),
               ("Ftx-Ts", ["1700000000000"]),
               ("Ftx-Sign", ["79ee87f56168a88a88246fb73ddabb8ec0c1b380a699afa7fbd13661e8b58609"]),
               ("Ftx-Subaccount", ["main"])],
    Body := "{}", ContentLength := 2, Host := "ftx.com" }

/-- An unauthenticated GET descriptor that nevertheless has a body. -/
def exampleGetWithBody : request :=
  { httpMethod := "GET", endpoint := "/markets", needSigned := false, params := [], body := "{}" }

/-- The request built from `exampleGetWithBody` by `exampleClient`. -/
def exampleGetBuilt : Request :=
  { Method := "GET",
    URL := { URL.empty with Scheme := "https", Host := "ftx.com", Path := "/api//markets" },
    Header := [], Body := "{}", ContentLength := 2, Host := "ftx.com" }

/-- The descriptor `GetMarketsService.Do` builds: unauthenticated GET of `/markets`. -/
def marketsRequest : request := newRequest MethodGet "/markets" false

/-- The request built from `marketsRequest` by `exampleClient`. -/
def marketsBuilt : Request :=
  { Method := "GET",
    URL := { URL.empty with Scheme := "https", Host := "ftx.com", Path := "/api//markets" },
    Header := [], Body := "", ContentLength := 0, Host := "ftx.com" }

/-- A transport that answers every request with the given status and body. -/
def constTransport (status : Int) (body : String) : Request → Except GoError Response :=
  fun _ => .ok { StatusCode := status, Body := .ok body }

/-- A transport that answers every request with the given status and a body that
cannot be read. -/
def brokenBodyTransport (status : Int) : Request → Except GoError Response :=
  fun _ => .ok { StatusCode := status, Body := .error (errorsNew "unexpected EOF") }

/-- An error envelope whose message is `Order already closed`. -/
def orderClosedBody : String :=
  "\x7b\"success\":false,\"error\":\"Order already closed\"\x7d"

/-- An error envelope whose message is none of the recognised ones. -/
def notEnoughBody : String :=
  "\x7b\"success\":false,\"error\":\"Not enough balances\"\x7d"

/-- The error envelope of the spec: `success = false` and no `result` member. -/
def insufficientFundsPlainBody : String :=
  "\x7b\"success\":false,\"error\":\"insufficient funds\"\x7d"

/-- An envelope with `success = false` and the `result` member `[]`. -/
def insufficientFundsBody : String :=
  "\x7b\"success\":false,\"error\":\"insufficient funds\",\"result\":[]\x7d"

/-- The descriptor of the order-placement scenario: authenticated POST to `/orders`,
no query parameters, body `placeOrderBody`. -/
def placeOrderRequest : request :=
  { httpMethod := MethodPost, endpoint := "/orders", needSigned := true, params := [],
    body := placeOrderBody }

/-- The request built from `placeOrderRequest` by `exampleClient` at
`now = 1700000000000`. -/
def placeOrderBuilt : Request :=
  { Method := "POST",
    URL := { URL.empty with Scheme := "https", Host := "ftx.com", Path := "/api//orders" },
    Header := [("Content-Type", ["application/json"]), ("Ftx-Key", ["key"]),
               ("Ftx-Ts", ["1700000000000"]),
               ("Ftx-Sign", ["cb342ab00ff32c916874fa91130ed97921d2c77484fe35b20983e1541847e51b"])],
    Body := placeOrderBody, ContentLength := 69, Host := "ftx.com" }

/-! ## HMAC-SHA-256 and hexadecimal, as the standards word them -/

/-- HMAC as RFC 2104 defines it over a hash function `H` with blocks of `B` bytes:
`H((K0 xor opad) || H((K0 xor ipad) || text))`, where `K0` is the key, replaced by
its hash when longer than `B` and filled up with zero bytes to `B` bytes, `ipad` is
the byte `0x36` and `opad` the byte `0x5c`, each repeated `B` times. -/
def rfc2104Hmac (H : List Nat → List Nat) (B : Nat) (key text : List Nat) : List Nat :=
  let k := if key.length > B then H key else key
  let k0 := k ++ List.replicate (B - k.length) 0
  let ipad := List.replicate B 0x36
  let opad := List.replicate B 0x5c
  H (List.zipWith (· ^^^ ·) k0 opad ++ H (List.zipWith (· ^^^ ·) k0 ipad ++ text))

/-- Lower-case hexadecimal encoding: every byte as its two base-16 digits, the
high one first, digits above nine written `a` to `f`. -/
def lowerHex (bytes : List Nat) : String :=
  String.mk (bytes.flatMap fun b => [Nat.digitChar (b / 16 % 16), Nat.digitChar (b % 16)])

/-- The request built from `marketsRequest` by `exampleSubClient`. -/
def marketsSubBuilt : Request :=
  { Method := "GET",
    URL := { URL.empty with Scheme := "https", Host := "ftx.com", Path := "/api//markets" },
    Header := [("Ftx-Subaccount", ["main"])], Body := "", ContentLength := 0, Host := "ftx.com" }

end FtxApi

/-! # Properties -/

namespace FtxApi

/-! ## Go maps -/

theorem mapGet?_mapSet_self {β : Type} (m : List (String × β)) (k : String) (v : β) :
    mapGet? (mapSet m k v) k = some v := by
  induction m with
  | nil => simp [mapSet, mapGet?]
  | cons kv rest ih =>
    obtain ⟨k0, v0⟩ := kv
    by_cases h : k0 = k
    · simp [mapSet, mapGet?, h]
    · simp [mapSet, mapGet?, h, ih]

theorem mapGet?_mapSet_ne {β : Type} (m : List (String × β)) (k k1 : String) (v : β)
    (hne : k ≠ k1) : mapGet? (mapSet m k v) k1 = mapGet? m k1 := by
  induction m with
  | nil => simp [mapSet, mapGet?, hne]
  | cons kv rest ih =>
    obtain ⟨k0, v0⟩ := kv
    by_cases h : k0 = k
    · subst h
      simp [mapSet, mapGet?, hne]
    · by_cases h1 : k0 = k1
      · subst h1
        simp [mapSet, mapGet?, h]
      · simp [mapSet, mapGet?, h, h1, ih]

theorem Header.values_set_self (h : Header) (key value : String) :
    (h.Set key value).Values key = some [value] := by
  simp [Header.Set, Header.Values, mapGet?_mapSet_self]

theorem Header.values_set_ne (h : Header) (key key1 value : String)
    (hne : canonicalMIMEHeaderKey key ≠ canonicalMIMEHeaderKey key1) :
    (h.Set key value).Values key1 = h.Values key1 := by
  simp [Header.Set, Header.Values, mapGet?_mapSet_ne _ _ _ _ hne]

/-! ## Strings -/

theorem utf8ByteSize_go_pos (c : Char) (cs : List Char) :
    0 < String.utf8ByteSize.go (c :: cs) := by
  have h := Char.utf8Size_pos c
  simp only [String.utf8ByteSize.go]
  omega

theorem utf8ByteSize_pos_iff (s : String) : s.utf8ByteSize > 0 ↔ s ≠ "" := by
  obtain ⟨l⟩ := s
  cases l with
  | nil => simp [String.utf8ByteSize, String.utf8ByteSize.go]
  | cons c cs =>
    have h := utf8ByteSize_go_pos c cs
    constructor
    · intro _ hEq
      have := congrArg String.data hEq
      simp at this
    · intro _
      simpa [String.utf8ByteSize] using h

/-- Appending the body only when it is not empty is appending it. -/
theorem signPayload_eq (req : Request) (r : request) (nonce : String) :
    signPayload req r nonce =
      nonce ++ req.Method ++ req.URL.Path
        ++ (if req.URL.RawQuery ≠ "" then "?" ++ req.URL.RawQuery else "")
        ++ (if r.body ≠ "" then r.body else "") := by
  unfold signPayload
  by_cases hq : req.URL.RawQuery = "" <;> by_cases hb : r.body = ""
  · simp [hq, hb]
  · have := (utf8ByteSize_pos_iff r.body).2 hb
    simp [hq, hb, this]
  · simp [hq, hb, String.append_assoc]
  · have := (utf8ByteSize_pos_iff r.body).2 hb
    simp [hq, hb, this, String.append_assoc]

/-! ## Header names -/

theorem canonical_contentType : canonicalMIMEHeaderKey "Content-Type" = "Content-Type" := by
  decide

theorem canonical_ftxKey : canonicalMIMEHeaderKey "FTX-KEY" = "Ftx-Key" := by decide

theorem canonical_ftxTs : canonicalMIMEHeaderKey "FTX-TS" = "Ftx-Ts" := by decide

theorem canonical_ftxSign : canonicalMIMEHeaderKey "FTX-SIGN" = "Ftx-Sign" := by decide

theorem canonical_ftxSubaccount :
    canonicalMIMEHeaderKey "FTX-SUBACCOUNT" = "Ftx-Subaccount" := by decide

/-! ## The request builder -/

theorem httpNewRequest_ok (lib : StdLib) (method url body : String) (req : Request)
    (h : httpNewRequest lib method url body = .ok req) :
    ∃ u, lib.urlParse url = .ok u ∧
      req = { Method := if method = "" then "GET" else method,
              URL := { u with Host := removeEmptyPort u.Host }, Header := [], Body := body,
              ContentLength := body.utf8ByteSize, Host := removeEmptyPort u.Host } := by
  unfold httpNewRequest at h
  simp only at h
  by_cases hv : validMethod (if method = "" then "GET" else method) = true
  · cases hu : lib.urlParse url with
    | error err => simp [hv, hu] at h
    | ok u =>
      simp only [hv, hu, Bool.not_true] at h
      refine ⟨u, rfl, ?_⟩
      cases h
      rfl
  · simp [hv] at h

/-- What `parsedequest` does in its `needSigned` branch: the string handed to `sign`,
the three authentication headers, the method and the URL of the built request. -/
theorem parsedequestTrace_signed (lib : StdLib) (c : Client) (r : request)
    (now : Int) (req : Request) (signed : Option String)
    (hs : r.needSigned = true)
    (h : c.parsedequestTrace lib r now = .ok (req, signed)) :
    signed = some (fmtD now ++ req.Method ++ req.URL.Path
        ++ (if req.URL.RawQuery ≠ "" then "?" ++ req.URL.RawQuery else "")
        ++ (if r.body ≠ "" then r.body else ""))
    ∧ req.Header.Values "FTX-KEY" = some [c.apiKey]
    ∧ req.Header.Values "FTX-TS" = some [fmtD now]
    ∧ req.Header.Values "FTX-SIGN" = some [c.sign (fmtD now ++ req.Method ++ req.URL.Path
        ++ (if req.URL.RawQuery ≠ "" then "?" ++ req.URL.RawQuery else "")
        ++ (if r.body ≠ "" then r.body else ""))]
    ∧ req.Method = (if r.httpMethod = "" then "GET" else r.httpMethod)
    ∧ ∃ u, lib.urlParse (c.baseURL ++ "/" ++ r.endpoint) = .ok u
        ∧ req.URL.Path = u.Path
        ∧ req.URL.RawQuery = Values.Encode
            (r.params.foldl (fun q kv => Values.Add q kv.1 kv.2) (lib.parseQuery u.RawQuery)) := by
  unfold Client.parsedequestTrace at h
  split at h
  · cases h
  · rename_i req0 hreq0
    obtain ⟨u, hu, hreq⟩ := httpNewRequest_ok _ _ _ _ _ hreq0
    simp only [hs, if_true] at h
    injection h with h
    injection h with h1 h2
    subst h2
    subst h1
    have k1 : canonicalMIMEHeaderKey "FTX-SUBACCOUNT" ≠ canonicalMIMEHeaderKey "FTX-SIGN" := by
      decide
    have k2 : canonicalMIMEHeaderKey "FTX-SUBACCOUNT" ≠ canonicalMIMEHeaderKey "FTX-TS" := by
      decide
    have k3 : canonicalMIMEHeaderKey "FTX-SUBACCOUNT" ≠ canonicalMIMEHeaderKey "FTX-KEY" := by
      decide
    have k4 : canonicalMIMEHeaderKey "FTX-SIGN" ≠ canonicalMIMEHeaderKey "FTX-TS" := by decide
    have k5 : canonicalMIMEHeaderKey "FTX-SIGN" ≠ canonicalMIMEHeaderKey "FTX-KEY" := by decide
    have k6 : canonicalMIMEHeaderKey "FTX-TS" ≠ canonicalMIMEHeaderKey "FTX-KEY" := by decide
    refine ⟨?_, ?_, ?_, ?_, ?_, u, hu, ?_, ?_⟩
    · rw [signPayload_eq]
      cases c.subAccount <;> rfl
    · cases c.subAccount with
      | none =>
        simp only
        rw [Header.values_set_ne _ _ _ _ k5, Header.values_set_ne _ _ _ _ k6,
          Header.values_set_self]
      | some sub =>
        simp only
        rw [Header.values_set_ne _ _ _ _ k3, Header.values_set_ne _ _ _ _ k5,
          Header.values_set_ne _ _ _ _ k6, Header.values_set_self]
    · cases c.subAccount with
      | none =>
        simp only
        rw [Header.values_set_ne _ _ _ _ k4, Header.values_set_self]
      | some sub =>
        simp only
        rw [Header.values_set_ne _ _ _ _ k2, Header.values_set_ne _ _ _ _ k4,
          Header.values_set_self]
    · rw [signPayload_eq]
      cases c.subAccount with
      | none => simp [Header.values_set_self]
      | some sub =>
        simp only
        rw [Header.values_set_ne _ _ _ _ k1, Header.values_set_self]
    · subst hreq
      cases c.subAccount <;> by_cases hm : r.httpMethod = MethodGet <;> simp [hm]
    · subst hreq
      cases c.subAccount <;> by_cases hm : r.httpMethod = MethodGet <;> simp [hm]
    · subst hreq
      cases c.subAccount <;> by_cases hm : r.httpMethod = MethodGet <;> simp [hm]

/-- C1. With `needSigned = true`, the string handed to `sign` (whose result is the
`FTX-SIGN` header) is the nonce in decimal, the request method, the path of the
parsed URL `baseURL + "/" + endpoint`, then `?` and the encoded query string when
that string is not empty, then the body when it is not empty, with nothing in
between. -/
theorem parsedequest_signs_canonical_payload (lib : StdLib) (c : Client) (r : request)
    (now : Int) (req : Request) (signed : Option String)
    (hs : r.needSigned = true)
    (h : c.parsedequestTrace lib r now = .ok (req, signed)) :
    signed = some (fmtD now ++ req.Method ++ req.URL.Path
        ++ (if req.URL.RawQuery ≠ "" then "?" ++ req.URL.RawQuery else "")
        ++ (if r.body ≠ "" then r.body else ""))
    ∧ req.Header.Values "FTX-SIGN" = some [c.sign (fmtD now ++ req.Method ++ req.URL.Path
        ++ (if req.URL.RawQuery ≠ "" then "?" ++ req.URL.RawQuery else "")
        ++ (if r.body ≠ "" then r.body else ""))]
    ∧ req.Method = (if r.httpMethod = "" then "GET" else r.httpMethod)
    ∧ ∃ u, lib.urlParse (c.baseURL ++ "/" ++ r.endpoint) = .ok u
        ∧ req.URL.Path = u.Path
        ∧ req.URL.RawQuery = Values.Encode
            (r.params.foldl (fun q kv => Values.Add q kv.1 kv.2) (lib.parseQuery u.RawQuery)) := by
  obtain ⟨h1, _, _, h4, h5, h6⟩ := parsedequestTrace_signed lib c r now req signed hs h
  exact ⟨h1, h4, h5, h6⟩

/-- Witness of C1: the descriptor `exampleSignedRequest`, built by `exampleSubClient`,
signs `1700000000000POST/api//orders?a=1&market=BTC%2FUSD{}`. -/
theorem parsedequest_signs_canonical_payload_witness :
    exampleSignedRequest.needSigned = true
    ∧ exampleSubClient.parsedequestTrace goLib exampleSignedRequest 1700000000000
        = .ok (exampleSignedBuilt, some "1700000000000POST/api//orders?a=1&market=BTC%2FUSD{}")
    ∧ (some "1700000000000POST/api//orders?a=1&market=BTC%2FUSD{}" : Option String)
        = some (fmtD 1700000000000 ++ "POST" ++ "/api//orders"
            ++ ("?" ++ "a=1&market=BTC%2FUSD") ++ "{}") :=
  ⟨rfl, by decide!,
    (parsedequest_signs_canonical_payload goLib exampleSubClient exampleSignedRequest
      1700000000000 exampleSignedBuilt _ rfl (by decide!)).1.trans (by decide)⟩

theorem parsedequest_ok (lib : StdLib) (c : Client) (r : request) (now : Int) (req : Request)
    (h : c.parsedequest lib r now = .ok req) :
    ∃ signed, c.parsedequestTrace lib r now = .ok (req, signed) := by
  unfold Client.parsedequest at h
  split at h
  · cases h
  · rename_i out hout
    cases h
    exact ⟨out.2, hout⟩

/-- C10. The built request has the header `Content-Type: application/json` exactly
when the descriptor's method is not `GET`; for a `GET` descriptor the header is
absent, whatever the body. -/
theorem parsedequest_content_type (lib : StdLib) (c : Client) (r : request) (now : Int)
    (req : Request) (h : c.parsedequest lib r now = .ok req) :
    (req.Header.Values "Content-Type" = some ["application/json"] ↔ r.httpMethod ≠ MethodGet)
    ∧ (r.httpMethod = MethodGet → req.Header.Values "Content-Type" = none) := by
  obtain ⟨signed, h⟩ := parsedequest_ok _ _ _ _ _ h
  unfold Client.parsedequestTrace at h
  split at h
  · cases h
  · rename_i req0 hreq0
    obtain ⟨u, _, hreq⟩ := httpNewRequest_ok _ _ _ _ _ hreq0
    subst hreq
    injection h with h
    injection h with h1 _
    subst h1
    have e1 : canonicalMIMEHeaderKey "FTX-SUBACCOUNT" ≠ canonicalMIMEHeaderKey "Content-Type" := by
      decide
    have e2 : canonicalMIMEHeaderKey "FTX-SIGN" ≠ canonicalMIMEHeaderKey "Content-Type" := by
      decide
    have e3 : canonicalMIMEHeaderKey "FTX-TS" ≠ canonicalMIMEHeaderKey "Content-Type" := by
      decide
    have e4 : canonicalMIMEHeaderKey "FTX-KEY" ≠ canonicalMIMEHeaderKey "Content-Type" := by
      decide
    have e5 : Header.Values [] "Content-Type" = none := rfl
    cases c.subAccount <;> cases r.needSigned <;> by_cases hm : r.httpMethod = MethodGet <;>
      simp [hm, Header.values_set_ne _ _ _ _ e1, Header.values_set_ne _ _ _ _ e2,
        Header.values_set_ne _ _ _ _ e3, Header.values_set_ne _ _ _ _ e4,
        Header.values_set_self, e5]

/-- Witness of C10: a `GET` descriptor with a body gets no `Content-Type` header, and
the `POST` descriptor of the order-placement scenario gets it. -/
theorem parsedequest_content_type_witness :
    exampleClient.parsedequest goLib exampleGetWithBody 1700000000000 = .ok exampleGetBuilt
    ∧ exampleGetWithBody.body ≠ ""
    ∧ exampleGetBuilt.Header.Values "Content-Type" = none
    ∧ exampleClient.parsedequest goLib placeOrderRequest 1700000000000 = .ok placeOrderBuilt
    ∧ placeOrderBuilt.Header.Values "Content-Type" = some ["application/json"] :=
  ⟨by decide!, by decide,
    (parsedequest_content_type goLib exampleClient exampleGetWithBody 1700000000000
      exampleGetBuilt (by decide!)).2 rfl,
    by decide!,
    (parsedequest_content_type goLib exampleClient placeOrderRequest 1700000000000
      placeOrderBuilt (by decide!)).1.2 (by decide)⟩

/-! ## The dispatcher -/

/-- C4. When the transport answers with status 429, `callAPI` returns no bytes and
the error `ErrorRateLimit`, whatever the body is and whether or not it can be read. -/
theorem callAPI_rate_limit (lib : StdLib) (httpDo : Request → Except GoError Response)
    (c : Client) (r : request) (now : Int) (req : Request) (resp : Response)
    (hreq : c.parsedequest lib r now = .ok req) (hdo : httpDo req = .ok resp)
    (hcode : resp.StatusCode = 429) :
    c.callAPI lib httpDo r now = (none, some ErrorRateLimit) := by
  simp [Client.callAPI, hreq, hdo, hcode]

/-- Witness of C4: status 429 with an unreadable body. -/
theorem callAPI_rate_limit_witness :
    exampleClient.parsedequest goLib marketsRequest 1700000000000 = .ok marketsBuilt
    ∧ exampleClient.callAPI goLib (brokenBodyTransport 429) marketsRequest 1700000000000
        = (none, some ErrorRateLimit) :=
  ⟨by decide!,
    callAPI_rate_limit goLib (brokenBodyTransport 429) exampleClient marketsRequest
      1700000000000 marketsBuilt ⟨429, .error (errorsNew "unexpected EOF")⟩ (by decide!)
      rfl rfl⟩

/-- C5, as stated, fails at status 429: the body decodes to an envelope with the
message `Order already closed`, the status is not 200, and `callAPI` returns
`ErrorRateLimit`, which is not `OrderAlreadyClosed`. -/
theorem callAPI_order_closed_counterexample :
    (429 : Int) ≠ StatusOK
    ∧ goLib.unmarshalBasic orderClosedBody = .ok ⟨false, "Order already closed"⟩
    ∧ exampleClient.callAPI goLib (constTransport 429 orderClosedBody) placeOrderRequest
        1700000000000 = (none, some ErrorRateLimit)
    ∧ exampleClient.callAPI goLib (constTransport 429 orderClosedBody) placeOrderRequest
        1700000000000 ≠ (none, some OrderAlreadyClosed) := by
  refine ⟨by decide, by decide, ?_, ?_⟩
  · decide!
  · decide!

/-- C5, amended. For a status other than 200 and 429 and a body that was read and
decodes to an envelope with the message `Order already closed`, `callAPI` returns
`OrderAlreadyClosed` and no bytes. -/
theorem callAPI_order_closed (lib : StdLib) (httpDo : Request → Except GoError Response)
    (c : Client) (r : request) (now : Int) (req : Request) (resp : Response)
    (respBody : String) (respData : basicResponse)
    (hreq : c.parsedequest lib r now = .ok req) (hdo : httpDo req = .ok resp)
    (h200 : resp.StatusCode ≠ StatusOK) (h429 : resp.StatusCode ≠ 429)
    (hbody : resp.Body = .ok respBody)
    (hdec : lib.unmarshalBasic respBody = .ok respData)
    (hmsg : respData.Error = "Order already closed") :
    c.callAPI lib httpDo r now = (none, some OrderAlreadyClosed) := by
  simp [Client.callAPI, hreq, hdo, h200, h429, hbody, hdec, hmsg]

/-- Witness of C5 amended: status 400 with the envelope `orderClosedBody`. -/
theorem callAPI_order_closed_witness :
    exampleClient.parsedequest goLib placeOrderRequest 1700000000000 = .ok placeOrderBuilt
    ∧ goLib.unmarshalBasic orderClosedBody = .ok ⟨false, "Order already closed"⟩
    ∧ exampleClient.callAPI goLib (constTransport 400 orderClosedBody) placeOrderRequest
        1700000000000 = (none, some OrderAlreadyClosed) :=
  ⟨by decide!, by decide,
    callAPI_order_closed goLib (constTransport 400 orderClosedBody) exampleClient
      placeOrderRequest 1700000000000 placeOrderBuilt ⟨400, .ok orderClosedBody⟩
      orderClosedBody ⟨false, "Order already closed"⟩ (by decide!) rfl (by decide) (by decide)
      rfl (by decide) rfl⟩

/-- C6. For a status other than 200 and 429 and a body that was read: when the body
does not decode, `callAPI` returns no bytes and the error
`unexpected status code = <code>`; when it decodes with a message that is neither
`Order already closed` nor `Order already queued for cancellation`, `callAPI`
returns no bytes and the error `unexpected status code = <code>, error = <message>`. -/
theorem callAPI_unexpected_status (lib : StdLib) (httpDo : Request → Except GoError Response)
    (c : Client) (r : request) (now : Int) (req : Request) (resp : Response)
    (respBody : String)
    (hreq : c.parsedequest lib r now = .ok req) (hdo : httpDo req = .ok resp)
    (h200 : resp.StatusCode ≠ StatusOK) (h429 : resp.StatusCode ≠ 429)
    (hbody : resp.Body = .ok respBody) :
    (∀ err, lib.unmarshalBasic respBody = .error err →
      c.callAPI lib httpDo r now
        = (none, some (errorsNew ("unexpected status code = " ++ fmtD resp.StatusCode))))
    ∧ (∀ respData, lib.unmarshalBasic respBody = .ok respData →
      respData.Error ≠ "Order already closed" →
      respData.Error ≠ "Order already queued for cancellation" →
      c.callAPI lib httpDo r now
        = (none, some (errorsNew ("unexpected status code = " ++ fmtD resp.StatusCode
            ++ ", error = " ++ respData.Error)))) := by
  constructor
  · intro err hdec
    simp [Client.callAPI, hreq, hdo, h200, h429, hbody, hdec]
  · intro respData hdec h1 h2
    simp [Client.callAPI, hreq, hdo, h200, h429, hbody, hdec, h1, h2]

/-- Witness of C6: status 502 with an HTML body, and status 400 with the envelope
`notEnoughBody`. -/
theorem callAPI_unexpected_status_witness :
    exampleClient.callAPI goLib (constTransport 502 "<html>Bad Gateway</html>")
        marketsRequest 1700000000000
      = (none, some (errorsNew "unexpected status code = 502"))
    ∧ exampleClient.callAPI goLib (constTransport 400 notEnoughBody)
        marketsRequest 1700000000000
      = (none, some (errorsNew "unexpected status code = 400, error = Not enough balances")) :=
  ⟨((callAPI_unexpected_status goLib (constTransport 502 "<html>Bad Gateway</html>")
      exampleClient marketsRequest 1700000000000 marketsBuilt
      ⟨502, .ok "<html>Bad Gateway</html>"⟩ "<html>Bad Gateway</html>" (by decide!) rfl
      (by decide) (by decide) rfl).1
      (errorsNew "invalid character '<' looking for beginning of value") (by decide)).trans
      (by decide),
   ((callAPI_unexpected_status goLib (constTransport 400 notEnoughBody)
      exampleClient marketsRequest 1700000000000 marketsBuilt
      ⟨400, .ok notEnoughBody⟩ notEnoughBody (by decide!) rfl
      (by decide) (by decide) rfl).2 ⟨false, "Not enough balances"⟩ (by decide) (by decide)
      (by decide)).trans (by decide)⟩

/-- C7. For status 200 and a body that was read, `callAPI` returns exactly the body
and no error, without looking at what the body holds. -/
theorem callAPI_ok_returns_body (lib : StdLib) (httpDo : Request → Except GoError Response)
    (c : Client) (r : request) (now : Int) (req : Request) (resp : Response)
    (respBody : String)
    (hreq : c.parsedequest lib r now = .ok req) (hdo : httpDo req = .ok resp)
    (h200 : resp.StatusCode = StatusOK) (hbody : resp.Body = .ok respBody) :
    c.callAPI lib httpDo r now = (some respBody, none) := by
  have h429 : ¬ StatusOK = (429 : Int) := by decide
  simp [Client.callAPI, hreq, hdo, h200, h429, hbody]

/-- Witness of C7: status 200 with a body that is not JSON. -/
theorem callAPI_ok_returns_body_witness :
    exampleClient.parsedequest goLib marketsRequest 1700000000000 = .ok marketsBuilt
    ∧ exampleClient.callAPI goLib (constTransport 200 "not json") marketsRequest
        1700000000000 = (some "not json", none) :=
  ⟨by decide!,
    callAPI_ok_returns_body goLib (constTransport 200 "not json") exampleClient
      marketsRequest 1700000000000 marketsBuilt ⟨200, .ok "not json"⟩ "not json"
      (by decide!) rfl rfl rfl⟩

/-! ## The order-placement scenario -/

/-- C2, as stated, fails for the client on the default endpoint: the request built
for the scenario signs `1700000000000POST/api//orders` followed by the body, and its
`FTX-SIGN` header is not the signature of `1700000000000POST/orders` followed by
the body. -/
theorem place_order_signature_counterexample :
    exampleClient.parsedequestTrace goLib placeOrderRequest 1700000000000
      = .ok (placeOrderBuilt, some ("1700000000000POST/api//orders" ++ placeOrderBody))
    ∧ placeOrderBuilt.Header.Values "FTX-SIGN"
      = some ["cb342ab00ff32c916874fa91130ed97921d2c77484fe35b20983e1541847e51b"]
    ∧ exampleClient.sign (fmtD 1700000000000 ++ "POST" ++ "/orders" ++ placeOrderBody)
      = "f8b1fa3693878cbb9cb509b27f93c480de5f6863c3ca7828383e230be832cb7a"
    ∧ placeOrderBuilt.Header.Values "FTX-SIGN"
      ≠ some [exampleClient.sign (fmtD 1700000000000 ++ "POST" ++ "/orders" ++ placeOrderBody)] := by
  refine ⟨?_, ?_, ?_, ?_⟩
  · decide!
  · decide
  · decide!
  · decide!

/-- The descriptor `PlaceOrderService.Do` hands to `callAPI`, once the path helper
has answered `/orders`, is the descriptor of the scenario. -/
theorem placeOrder_descriptor (b : String) :
    (newRequest MethodPost "/orders" true).setBody b
      = { httpMethod := MethodPost, endpoint := "/orders", needSigned := true, params := [],
          body := b } := rfl

/-- C2, amended. For an authenticated POST descriptor with path `/orders`, no query
parameters and body `b`, when the built URL has no query string: the request carries
the API key in `FTX-KEY`, the nonce in `FTX-TS`, and in `FTX-SIGN` the signature of
nonce, `POST`, the path of the parsed URL `baseURL + "/" + "/orders"` and `b`, the
nonce being the very string of `FTX-TS`. -/
theorem place_order_signature (lib : StdLib) (c : Client) (b : String) (now : Int)
    (req : Request)
    (h : c.parsedequest lib
      { httpMethod := MethodPost, endpoint := "/orders", needSigned := true, params := [],
        body := b } now = .ok req)
    (hq : req.URL.RawQuery = "") :
    ∃ nonce p,
      nonce = fmtD now
      ∧ req.Header.Values "FTX-KEY" = some [c.apiKey]
      ∧ req.Header.Values "FTX-TS" = some [nonce]
      ∧ req.Header.Values "FTX-SIGN" = some [c.sign (nonce ++ "POST" ++ p ++ b)]
      ∧ req.URL.Path = p
      ∧ ∃ u, lib.urlParse (c.baseURL ++ "/" ++ "/orders") = .ok u ∧ u.Path = p := by
  obtain ⟨signed, h⟩ := parsedequest_ok _ _ _ _ _ h
  obtain ⟨_, hkey, hts, hsign, hmethod, u, hu, hpath, _⟩ :=
    parsedequestTrace_signed lib c _ now req signed rfl h
  refine ⟨fmtD now, req.URL.Path, rfl, hkey, hts, ?_, rfl, u, hu, hpath.symm⟩
  rw [hsign]
  have hm : req.Method = "POST" := by rw [hmethod]; rfl
  by_cases hb : b = "" <;> simp [hq, hm, hb]

/-- Witness of C2 amended: the scenario on the default endpoint, where the signed
path is `/api//orders`. -/
theorem place_order_signature_witness :
    exampleClient.parsedequest goLib placeOrderRequest 1700000000000 = .ok placeOrderBuilt
    ∧ placeOrderBuilt.URL.RawQuery = ""
    ∧ ∃ nonce p,
      nonce = fmtD 1700000000000
      ∧ placeOrderBuilt.Header.Values "FTX-KEY" = some [exampleClient.apiKey]
      ∧ placeOrderBuilt.Header.Values "FTX-TS" = some [nonce]
      ∧ placeOrderBuilt.Header.Values "FTX-SIGN"
          = some [exampleClient.sign (nonce ++ "POST" ++ p ++ placeOrderBody)]
      ∧ placeOrderBuilt.URL.Path = p
      ∧ ∃ u, goLib.urlParse (exampleClient.baseURL ++ "/" ++ "/orders") = .ok u ∧ u.Path = p :=
  ⟨by decide!, rfl,
    place_order_signature goLib exampleClient placeOrderBody 1700000000000 placeOrderBuilt
      (by decide!) rfl⟩

/-! ## The signer -/

theorem beBytes_length (x : Nat) : (beBytes x).length = 4 := rfl

theorem sha256Sum_length (msg : List Nat) : (sha256Sum msg).length = 32 := by
  simp [sha256Sum, beBytes_length]

theorem zipWith_xor_replicate (l : List Nat) (n x : Nat) (h : l.length = n) :
    List.zipWith (· ^^^ ·) l (List.replicate n x) = l.map (· ^^^ x) := by
  induction l generalizing n with
  | nil => subst h; rfl
  | cons a as ih =>
    cases n with
    | zero => simp at h
    | succ m =>
      simp only [List.replicate_succ, List.zipWith_cons_cons, List.map_cons]
      rw [ih m (by simpa using h)]

theorem goCopy_zero_block (B : Nat) (k : List Nat) (h : k.length ≤ B) :
    goCopy (List.replicate B 0) k = k ++ List.replicate (B - k.length) 0 := by
  unfold goCopy
  rw [List.length_replicate, List.take_of_length_le h, List.drop_replicate]

/-- The HMAC of `crypto/hmac` over a fresh hash whose digests fit in a block is the
HMAC of RFC 2104. -/
theorem hmac_sum_eq_rfc2104 (h : GoHash) (key text : List Nat)
    (hfresh : h.written = []) (hfit : ∀ m, (h.digest m).length ≤ h.blockSize) :
    ((hmacNew h key).Write text).Sum [] = rfc2104Hmac h.digest h.blockSize key text := by
  obtain ⟨H, B, w⟩ := h
  simp only at hfresh hfit
  subst hfresh
  have hk : (if key.length > B then H key else key).length ≤ B := by
    by_cases hlong : key.length > B
    · rw [if_pos hlong]; exact hfit key
    · rw [if_neg hlong]; omega
  have hlen : ((if key.length > B then H key else key)
      ++ List.replicate (B - (if key.length > B then H key else key).length) 0).length = B := by
    rw [List.length_append, List.length_replicate]
    omega
  simp only [hmacNew, Hmac.Write, Hmac.Sum, GoHash.Write, GoHash.Sum, GoHash.Reset,
    GoHash.BlockSize, rfc2104Hmac, List.nil_append, List.length_nil, List.drop_zero,
    List.take_zero]
  have hkey : (if key.length > B then
      H (if key.length > B then key else []) else key)
      = (if key.length > B then H key else key) := by
    by_cases hlong : key.length > B
    · simp only [if_pos hlong]
    · simp only [if_neg hlong]
  simp only [apply_ite GoHash.written, apply_ite GoHash.digest, ite_self, hkey,
    goCopy_zero_block _ _ hk, zipWith_xor_replicate _ _ _ hlen]

theorem hextable_eq_digitChar (n : Nat) (h : n < 16) : hextable n = Nat.digitChar n := by
  interval_cases n <;> rfl

theorem hextable_mem (n : Nat) (h : n < 16) : hextable n ∈ "0123456789abcdef".toList := by
  interval_cases n <;> decide

theorem hexEncodeToString_eq_lowerHex (src : List Nat) : hexEncodeToString src = lowerHex src := by
  unfold hexEncodeToString lowerHex
  congr 1
  induction src with
  | nil => rfl
  | cons b bs ih =>
    simp only [List.flatMap_cons, ih]
    rw [hextable_eq_digitChar _ (Nat.mod_lt _ (by decide)),
      hextable_eq_digitChar _ (Nat.mod_lt _ (by decide))]

theorem hexEncodeToString_length (src : List Nat) :
    (hexEncodeToString src).length = 2 * src.length := by
  unfold hexEncodeToString
  simp only [String.length]
  induction src with
  | nil => rfl
  | cons b bs ih =>
    simp only [List.flatMap_cons, List.length_append, List.length_cons, List.length_nil, ih]
    omega

theorem hexEncodeToString_chars (src : List Nat) :
    ∀ ch ∈ (hexEncodeToString src).toList, ch ∈ "0123456789abcdef".toList := by
  unfold hexEncodeToString
  intro ch hch
  simp only [String.toList, List.mem_flatMap, List.mem_cons, List.mem_singleton,
    List.not_mem_nil, or_false] at hch
  obtain ⟨b, _, hb⟩ := hch
  rcases hb with hb | hb
  · rw [hb]; exact hextable_mem _ (Nat.mod_lt _ (by decide))
  · rw [hb]; exact hextable_mem _ (Nat.mod_lt _ (by decide))

theorem sha256New_fits (m : List Nat) : (sha256New.digest m).length ≤ sha256New.blockSize := by
  show (sha256Sum m).length ≤ 64
  rw [sha256Sum_length]
  decide

theorem sign_eq_rfc2104 (c : Client) (payload : String) :
    c.sign payload
      = hexEncodeToString (rfc2104Hmac sha256Sum 64 (utf8Bytes c.apiSecret) (utf8Bytes payload)) := by
  unfold Client.sign
  simp only []
  rw [hmac_sum_eq_rfc2104 sha256New _ _ rfl sha256New_fits]
  rfl

theorem rfc2104Hmac_sha256_length (key text : List Nat) :
    (rfc2104Hmac sha256Sum 64 key text).length = 32 := by
  unfold rfc2104Hmac
  exact sha256Sum_length _

/-- The HMAC model reproduces test case 6 of RFC 4231, whose key of 131 bytes is
longer than a block and is therefore hashed first. -/
theorem hmac_rfc4231_case6 :
    hexEncodeToString (((hmacNew sha256New (List.replicate 131 0xaa)).Write
        (utf8Bytes "Test Using Larger Than Block-Size Key - Hash Key First")).Sum [])
      = "60e431591ee0b67f0d8a26aacbf5b77f8e0bc6213728c5140546040f0ee37f54" := by
  decide!

/-- C3. For every secret and payload, `sign` returns the lower-case hexadecimal
encoding of the HMAC (RFC 2104) with SHA-256 (FIPS 180-4) of the payload bytes under
the secret bytes; it has 64 characters, all of them among `0-9a-f`; and it agrees
with the published digests of RFC 4231 (test case 2) and of the "quick brown fox"
example. -/
theorem sign_is_hmac_sha256_hex :
    (∀ (c : Client) (payload : String),
      c.sign payload
        = lowerHex (rfc2104Hmac sha256Sum 64 (utf8Bytes c.apiSecret) (utf8Bytes payload))
      ∧ (c.sign payload).length = 64
      ∧ ∀ ch ∈ (c.sign payload).toList, ch ∈ "0123456789abcdef".toList)
    ∧ Client.sign { exampleClient with apiSecret := "Jefe" } "what do ya want for nothing?"
        = "5bdcc146bf60754e6a042426089575c75a003f089d2739839dec58b964ec3843"
    ∧ Client.sign { exampleClient with apiSecret := "key" }
        "The quick brown fox jumps over the lazy dog"
        = "f7bc83f430538424b13298e6aa6fb143ef4d59a14946175997479dbc2d1a3cd8" := by
  refine ⟨fun c payload => ⟨?_, ?_, ?_⟩, ?_, ?_⟩
  · rw [sign_eq_rfc2104, hexEncodeToString_eq_lowerHex]
  · rw [sign_eq_rfc2104, hexEncodeToString_length, rfc2104Hmac_sha256_length]
  · rw [sign_eq_rfc2104]
    exact hexEncodeToString_chars _
  · decide!
  · decide!

/-! ## The endpoint wrappers -/

/-- C8, as stated, fails when the `result` member does not fit the wrapper's result
type. On HTTP 200 `callAPI` returns the bytes of `insufficientFundsBody`, which decode
to an envelope with `success = false` and the error `insufficient funds`; its `result`
member is `[]`, `json.Unmarshal` into `PlaceOrderResponse` (whose `Result` is `*Order`)
returns a type error, and `PlaceOrderService.Do` returns that error, not
`insufficient funds`. -/
theorem do_envelope_error_counterexample :
    exampleClient.callAPI goLib (constTransport 200 insufficientFundsBody)
        ((newRequest MethodPost (goEndPointWithFormat "/orders" []) true).setBody placeOrderBody)
        1700000000000 = (some insufficientFundsBody, none)
    ∧ goUnmarshalBasic insufficientFundsBody = .ok ⟨false, "insufficient funds"⟩
    ∧ PlaceOrderService.Do goLib (constTransport 200 insufficientFundsBody)
        goEndPointWithFormat (fun _ : Unit => .ok placeOrderBody)
        (goUnmarshalObjectResult () "PlaceOrderResponse" "ftxapi.Order")
        ⟨exampleClient, ()⟩ 1700000000000
      = (none, some (errorsNew ("json: cannot unmarshal array into Go struct field "
          ++ "PlaceOrderResponse.result of type ftxapi.Order")))
    ∧ PlaceOrderService.Do goLib (constTransport 200 insufficientFundsBody)
        goEndPointWithFormat (fun _ : Unit => .ok placeOrderBody)
        (goUnmarshalObjectResult () "PlaceOrderResponse" "ftxapi.Order")
        ⟨exampleClient, ()⟩ 1700000000000
      ≠ (none, some (errorsNew "insufficient funds")) := by
  refine ⟨?_, ?_, ?_, ?_⟩
  · decide!
  · decide
  · decide!
  · decide!

/-- Each `Do` returns the error of `json.Unmarshal` before it looks at `Success`;
here for `PlaceOrderService.Do`. -/
theorem placeOrder_do_decode_error {PlaceOrderParams Order : Type} (lib : StdLib)
    (httpDo : Request → Except GoError Response)
    (endPointWithFormat : String → List String → String)
    (marshal : PlaceOrderParams → Except GoError String)
    (unmarshal : String → Except GoError (TypedResponse Order))
    (s : PlaceOrderService PlaceOrderParams) (now : Int) (body byteData : String)
    (err : GoError) (hbody : marshal s.params = .ok body)
    (hcall : s.c.callAPI lib httpDo
      ((newRequest MethodPost (endPointWithFormat "/orders" []) true).setBody body) now
      = (some byteData, none))
    (hdec : unmarshal byteData = .error err) :
    s.Do lib httpDo endPointWithFormat marshal unmarshal now = (none, some err) := by
  simp [PlaceOrderService.Do, hbody, hcall, hdec]

/-- C8, amended. For each of the seven wrappers: when `callAPI` returns bytes (which
it does on HTTP 200 only) and `json.Unmarshal` decodes them without error into the
wrapper's response type, with `Success = false` and error string `e`, `Do` returns a
nil result and an error whose message is `e`, whatever the decoded `Result` holds. -/
theorem do_envelope_error {Market FutureStats FutureIndexWeights Order Balance
    PlaceOrderParams : Type} (lib : StdLib) (httpDo : Request → Except GoError Response)
    (endPointWithFormat : String → List String → String) (now : Int) (e : String) :
    (∀ (s : GetMarketsService) (unmarshal : String → Except GoError (TypedResponse (List Market)))
        (byteData : String) (result : TypedResponse (List Market)),
      s.c.callAPI lib httpDo (newRequest MethodGet "/markets" false) now = (some byteData, none) →
      unmarshal byteData = .ok result → result.Success = false → result.Error = e →
      s.Do lib httpDo unmarshal now = (none, some (errorsNew e)))
    ∧ (∀ (s : GetSingleMarketService) (unmarshal : String → Except GoError (TypedResponse Market))
        (byteData : String) (result : TypedResponse Market),
      s.c.callAPI lib httpDo
        (newRequest MethodGet (endPointWithFormat "/markets/%s" [s.marketName]) false) now
        = (some byteData, none) →
      unmarshal byteData = .ok result → result.Success = false → result.Error = e →
      s.Do lib httpDo endPointWithFormat unmarshal now = (none, some (errorsNew e)))
    ∧ (∀ (s : GetFutureStatsService)
        (unmarshal : String → Except GoError (TypedResponse FutureStats))
        (byteData : String) (result : TypedResponse FutureStats),
      s.c.callAPI lib httpDo
        (newRequest MethodGet (endPointWithFormat "/futures/%s/stats" [s.futureName]) false) now
        = (some byteData, none) →
      unmarshal byteData = .ok result → result.Success = false → result.Error = e →
      s.Do lib httpDo endPointWithFormat unmarshal now = (none, some (errorsNew e)))
    ∧ (∀ (s : GetFutureIndexWeightsService)
        (unmarshal : String → Except GoError (TypedResponse FutureIndexWeights))
        (byteData : String) (result : TypedResponse FutureIndexWeights),
      s.c.callAPI lib httpDo
        (newRequest MethodGet (endPointWithFormat "/indexes/%s/weights" [s.indexName]) false) now
        = (some byteData, none) →
      unmarshal byteData = .ok result → result.Success = false → result.Error = e →
      s.Do lib httpDo endPointWithFormat unmarshal now = (none, some (errorsNew e)))
    ∧ (∀ (s : GetOpenOrdersService)
        (unmarshal : String → Except GoError (TypedResponse (List Order)))
        (byteData : String) (result : TypedResponse (List Order)),
      s.c.callAPI lib httpDo
        (match s.market with
          | some market => (newRequest MethodGet "/orders" true).setParam "market" market
          | none => newRequest MethodGet "/orders" true) now
        = (some byteData, none) →
      unmarshal byteData = .ok result → result.Success = false → result.Error = e →
      s.Do lib httpDo unmarshal now = (none, some (errorsNew e)))
    ∧ (∀ (s : PlaceOrderService PlaceOrderParams)
        (marshal : PlaceOrderParams → Except GoError String)
        (unmarshal : String → Except GoError (TypedResponse Order))
        (body byteData : String) (result : TypedResponse Order),
      marshal s.params = .ok body →
      s.c.callAPI lib httpDo
        ((newRequest MethodPost (endPointWithFormat "/orders" []) true).setBody body) now
        = (some byteData, none) →
      unmarshal byteData = .ok result → result.Success = false → result.Error = e →
      s.Do lib httpDo endPointWithFormat marshal unmarshal now = (none, some (errorsNew e)))
    ∧ (∀ (s : GetBalancesService)
        (unmarshal : String → Except GoError (TypedResponse (List Balance)))
        (byteData : String) (result : TypedResponse (List Balance)),
      s.c.callAPI lib httpDo
        (newRequest MethodGet (endPointWithFormat "/wallet/balances" []) true) now
        = (some byteData, none) →
      unmarshal byteData = .ok result → result.Success = false → result.Error = e →
      s.Do lib httpDo endPointWithFormat unmarshal now = (none, some (errorsNew e))) := by
  refine ⟨?_, ?_, ?_, ?_, ?_, ?_, ?_⟩
  · intro s unmarshal byteData result hcall hdec hsucc herr
    simp [GetMarketsService.Do, hcall, hdec, hsucc, herr]
  · intro s unmarshal byteData result hcall hdec hsucc herr
    simp [GetSingleMarketService.Do, hcall, hdec, hsucc, herr]
  · intro s unmarshal byteData result hcall hdec hsucc herr
    simp [GetFutureStatsService.Do, hcall, hdec, hsucc, herr]
  · intro s unmarshal byteData result hcall hdec hsucc herr
    simp [GetFutureIndexWeightsService.Do, hcall, hdec, hsucc, herr]
  · intro s unmarshal byteData result hcall hdec hsucc herr
    simp [GetOpenOrdersService.Do, hcall, hdec, hsucc, herr]
  · intro s marshal unmarshal body byteData result hbody hcall hdec hsucc herr
    simp [PlaceOrderService.Do, hbody, hcall, hdec, hsucc, herr]
  · intro s unmarshal byteData result hcall hdec hsucc herr
    simp [GetBalancesService.Do, hcall, hdec, hsucc, herr]

/-- Witness of C8 amended: on HTTP 200 `GetMarketsService.Do` answers the envelope
`insufficientFundsBody`, whose `result` member `[]` decodes to the empty slice, and
`PlaceOrderService.Do` answers the envelope of the spec, which has no `result`
member, with no result and the error `insufficient funds`. -/
theorem do_envelope_error_witness :
    goUnmarshalSliceResult Unit "MarketsResponse" "[]ftxapi.Market" insufficientFundsBody
      = .ok { Success := false, Error := "insufficient funds", Result := some [] }
    ∧ GetMarketsService.Do goLib (constTransport 200 insufficientFundsBody)
        (goUnmarshalSliceResult Unit "MarketsResponse" "[]ftxapi.Market")
        ⟨exampleClient⟩ 1700000000000 = (none, some (errorsNew "insufficient funds"))
    ∧ goUnmarshalObjectResult () "PlaceOrderResponse" "ftxapi.Order" insufficientFundsPlainBody
      = .ok { Success := false, Error := "insufficient funds", Result := none }
    ∧ PlaceOrderService.Do goLib (constTransport 200 insufficientFundsPlainBody)
        goEndPointWithFormat (fun _ : Unit => .ok placeOrderBody)
        (goUnmarshalObjectResult () "PlaceOrderResponse" "ftxapi.Order")
        ⟨exampleClient, ()⟩ 1700000000000 = (none, some (errorsNew "insufficient funds")) :=
  ⟨by decide,
   (@do_envelope_error Unit Unit Unit Unit Unit Unit goLib
      (constTransport 200 insufficientFundsBody) goEndPointWithFormat 1700000000000
      "insufficient funds").1 ⟨exampleClient⟩
      (goUnmarshalSliceResult Unit "MarketsResponse" "[]ftxapi.Market") insufficientFundsBody
      { Success := false, Error := "insufficient funds", Result := some [] }
      (by decide!) (by decide) rfl rfl,
   by decide,
   (@do_envelope_error Unit Unit Unit Unit Unit Unit goLib
      (constTransport 200 insufficientFundsPlainBody) goEndPointWithFormat 1700000000000
      "insufficient funds").2.2.2.2.2.1 ⟨exampleClient, ()⟩ (fun _ => .ok placeOrderBody)
      (goUnmarshalObjectResult () "PlaceOrderResponse" "ftxapi.Order") placeOrderBody
      insufficientFundsPlainBody
      { Success := false, Error := "insufficient funds", Result := none }
      rfl (by decide!) (by decide) rfl rfl⟩

/-! ## Query parameters -/

theorem mapGet?_mapSet {β : Type} (m : List (String × β)) (k k1 : String) (v : β) :
    mapGet? (mapSet m k v) k1 = if k = k1 then some v else mapGet? m k1 := by
  by_cases h : k = k1
  · subst h
    rw [if_pos rfl, mapGet?_mapSet_self]
  · rw [if_neg h, mapGet?_mapSet_ne _ _ _ _ h]

theorem mapGet?_eq_none_iff {β : Type} (m : List (String × β)) (k : String) :
    mapGet? m k = none ↔ k ∉ m.map Prod.fst := by
  induction m with
  | nil => simp [mapGet?]
  | cons kv rest ih =>
    obtain ⟨k0, v0⟩ := kv
    by_cases h : k0 = k
    · simp [mapGet?, h]
    · have h1 : ¬ k = k0 := fun e => h e.symm
      simp [mapGet?, h, h1, ih]

theorem keys_mapSet_of_mem {β : Type} (m : List (String × β)) (k : String) (v : β)
    (h : k ∈ m.map Prod.fst) : (mapSet m k v).map Prod.fst = m.map Prod.fst := by
  induction m with
  | nil => simp at h
  | cons kv rest ih =>
    obtain ⟨k0, v0⟩ := kv
    by_cases h0 : k0 = k
    · simp [mapSet, h0]
    · have h1 : k ∈ rest.map Prod.fst := by
        simp only [List.map_cons, List.mem_cons] at h
        rcases h with h | h
        · exact absurd h.symm h0
        · exact h
      simp [mapSet, h0, ih h1]

theorem mapSet_of_not_mem {β : Type} (m : List (String × β)) (k : String) (v : β)
    (h : k ∉ m.map Prod.fst) : mapSet m k v = m ++ [(k, v)] := by
  induction m with
  | nil => rfl
  | cons kv rest ih =>
    obtain ⟨k0, v0⟩ := kv
    simp only [List.map_cons, List.mem_cons, not_or] at h
    have h0 : ¬ k0 = k := fun e => h.1 e.symm
    simp [mapSet, h0, ih h.2]

/-- Adding a value keeps two maps with the same keys and the same entries alike. -/
theorem Values.add_congr (v w : Values) (k x : String)
    (hk : (v.map Prod.fst).Perm (w.map Prod.fst)) (hg : ∀ a, mapGet? v a = mapGet? w a) :
    ((Values.Add v k x).map Prod.fst).Perm ((Values.Add w k x).map Prod.fst)
    ∧ ∀ a, mapGet? (Values.Add v k x) a = mapGet? (Values.Add w k x) a := by
  constructor
  · unfold Values.Add
    by_cases hm : k ∈ v.map Prod.fst
    · rw [keys_mapSet_of_mem _ _ _ hm, keys_mapSet_of_mem _ _ _ (hk.mem_iff.1 hm)]
      exact hk
    · rw [mapSet_of_not_mem _ _ _ hm, mapSet_of_not_mem _ _ _ (fun h => hm (hk.mem_iff.2 h))]
      simp only [List.map_append, List.map_cons, List.map_nil]
      exact hk.append_right _
  · intro a
    unfold Values.Add mapGet
    rw [mapGet?_mapSet, mapGet?_mapSet, hg k, hg a]

theorem keys_mapSet {β : Type} (m : List (String × β)) (k : String) (v : β) :
    (mapSet m k v).map Prod.fst
      = if k ∈ m.map Prod.fst then m.map Prod.fst else m.map Prod.fst ++ [k] := by
  by_cases h : k ∈ m.map Prod.fst
  · rw [if_pos h, keys_mapSet_of_mem _ _ _ h]
  · rw [if_neg h, mapSet_of_not_mem _ _ _ h]
    simp

/-- Adding values under two different keys gives the same map in either order. -/
theorem Values.add_comm (v : Values) (k1 x1 k2 x2 : String) (hne : k1 ≠ k2) :
    (((v.Add k1 x1).Add k2 x2).map Prod.fst).Perm (((v.Add k2 x2).Add k1 x1).map Prod.fst)
    ∧ ∀ a, mapGet? ((v.Add k1 x1).Add k2 x2) a = mapGet? ((v.Add k2 x2).Add k1 x1) a := by
  have hne2 : k2 ≠ k1 := fun e => hne e.symm
  constructor
  · unfold Values.Add
    simp only [keys_mapSet]
    by_cases h1 : k1 ∈ v.map Prod.fst <;> by_cases h2 : k2 ∈ v.map Prod.fst
    · simp [h1, h2]
    · simp [h1, h2]
    · simp [h1, h2]
    · simp only [h1, h2, if_false, List.mem_append, List.mem_singleton, hne, hne2, or_self,
        List.append_assoc, List.singleton_append]
      exact List.Perm.append_left _ (List.Perm.swap _ _ _)
  · intro a
    unfold Values.Add mapGet
    simp only [mapGet?_mapSet]
    by_cases ha1 : k1 = a <;> by_cases ha2 : k2 = a
    · exact absurd (ha1.trans ha2.symm) hne
    · simp [ha1, ha2, hne2, hne]
    · simp [ha1, ha2, hne2, hne]
    · simp [ha1, ha2, hne2, hne]
theorem Values.foldl_add_congr (l : List (String × String)) (v w : Values)
    (hk : (v.map Prod.fst).Perm (w.map Prod.fst)) (hg : ∀ a, mapGet? v a = mapGet? w a) :
    ((l.foldl (fun q kv => Values.Add q kv.1 kv.2) v).map Prod.fst).Perm
      ((l.foldl (fun q kv => Values.Add q kv.1 kv.2) w).map Prod.fst)
    ∧ ∀ a, mapGet? (l.foldl (fun q kv => Values.Add q kv.1 kv.2) v) a
        = mapGet? (l.foldl (fun q kv => Values.Add q kv.1 kv.2) w) a := by
  induction l generalizing v w with
  | nil => exact ⟨hk, hg⟩
  | cons kv rest ih =>
    simp only [List.foldl_cons]
    obtain ⟨h1, h2⟩ := Values.add_congr v w kv.1 kv.2 hk hg
    exact ih _ _ h1 h2

/-- Adding the entries of a Go map in two iteration orders gives maps with the same
keys and the same entries. -/
theorem Values.foldl_add_perm {l1 l2 : List (String × String)} (hp : l1.Perm l2)
    (hnd : (l1.map Prod.fst).Nodup) :
    ∀ v w : Values, (v.map Prod.fst).Perm (w.map Prod.fst) →
      (∀ a, mapGet? v a = mapGet? w a) →
      ((l1.foldl (fun q kv => Values.Add q kv.1 kv.2) v).map Prod.fst).Perm
        ((l2.foldl (fun q kv => Values.Add q kv.1 kv.2) w).map Prod.fst)
      ∧ ∀ a, mapGet? (l1.foldl (fun q kv => Values.Add q kv.1 kv.2) v) a
          = mapGet? (l2.foldl (fun q kv => Values.Add q kv.1 kv.2) w) a := by
  induction hp with
  | nil => intro v w hk hg; exact ⟨hk, hg⟩
  | cons x _ ih =>
    intro v w hk hg
    simp only [List.foldl_cons]
    obtain ⟨h1, h2⟩ := Values.add_congr v w x.1 x.2 hk hg
    exact ih (List.nodup_cons.1 hnd).2 _ _ h1 h2
  | swap x y l =>
    intro v w hk hg
    simp only [List.foldl_cons]
    have hxy : y.1 ≠ x.1 := by
      intro e
      have := (List.nodup_cons.1 hnd).1
      simp [e] at this
    obtain ⟨c1, c2⟩ := Values.add_comm v y.1 y.2 x.1 x.2 hxy
    obtain ⟨d1, d2⟩ := Values.add_congr v w x.1 x.2 hk hg
    obtain ⟨e1, e2⟩ := Values.add_congr _ _ y.1 y.2 d1 d2
    exact Values.foldl_add_congr l _ _ (c1.trans e1) (fun a => (c2 a).trans (e2 a))
  | trans h1 _ ih1 ih2 =>
    intro v w hk hg
    obtain ⟨a1, a2⟩ := ih1 hnd v v (List.Perm.refl _) (fun _ => rfl)
    obtain ⟨b1, b2⟩ := ih2 ((h1.map Prod.fst).nodup_iff.1 hnd) v w hk hg
    exact ⟨a1.trans b1, fun a => (a2 a).trans (b2 a)⟩

theorem keyLE_total (a b : String) : keyLE a b ∨ keyLE b a := le_total a.toList b.toList

theorem keyLE_trans (a b c : String) (h1 : keyLE a b) (h2 : keyLE b c) : keyLE a c :=
  le_trans (α := List Char) h1 h2

theorem keyLE_antisymm (a b : String) (h1 : keyLE a b) (h2 : keyLE b a) : a = b :=
  String.ext (le_antisymm (α := List Char) h1 h2)

theorem insertionSort_keyLE_perm {l1 l2 : List String} (hp : l1.Perm l2) :
    l1.insertionSort keyLE = l2.insertionSort keyLE := by
  haveI : IsTotal String keyLE := ⟨keyLE_total⟩
  haveI : IsTrans String keyLE := ⟨keyLE_trans⟩
  haveI : IsAntisymm String keyLE := ⟨keyLE_antisymm⟩
  exact List.eq_of_perm_of_sorted
    (((List.perm_insertionSort keyLE l1).trans hp).trans (List.perm_insertionSort keyLE l2).symm)
    (List.sorted_insertionSort keyLE l1) (List.sorted_insertionSort keyLE l2)

/-- The encoded query string depends on the keys and the entries of the map only,
not on the order in which the map lists them. -/
theorem Values.encode_congr (v w : Values)
    (hk : (v.map Prod.fst).Perm (w.map Prod.fst)) (hg : ∀ a, mapGet? v a = mapGet? w a) :
    Values.Encode v = Values.Encode w := by
  have hlen : v.length = w.length := by simpa using hk.length_eq
  have hget : mapGet v = mapGet w := by
    funext a
    unfold mapGet
    rw [hg a]
  unfold Values.Encode sortedKeys
  rw [hlen, insertionSort_keyLE_perm hk, hget]
/-- Adding entries with fresh, distinct keys appends them, each with one value. -/
theorem Values.foldl_add_fresh (l : List (String × String)) :
    ∀ v : Values, (l.map Prod.fst).Nodup → (∀ k ∈ l.map Prod.fst, k ∉ v.map Prod.fst) →
      l.foldl (fun q kv => Values.Add q kv.1 kv.2) v = v ++ l.map (fun kv => (kv.1, [kv.2])) := by
  induction l with
  | nil => intro v _ _; simp
  | cons kv rest ih =>
    intro v hnd hfresh
    have hk : kv.1 ∉ v.map Prod.fst := hfresh kv.1 (by simp)
    have hadd : Values.Add v kv.1 kv.2 = v ++ [(kv.1, [kv.2])] := by
      unfold Values.Add mapGet
      rw [(mapGet?_eq_none_iff v kv.1).2 hk, mapSet_of_not_mem _ _ _ hk]
      rfl
    simp only [List.foldl_cons, hadd]
    rw [ih _ (List.nodup_cons.1 hnd).2]
    · simp
    · intro k hkr
      have h1 : k ∉ v.map Prod.fst := hfresh k (by simp [List.mem_map] at hkr ⊢; exact Or.inr hkr)
      have h2 : k ≠ kv.1 := by
        intro e
        have := (List.nodup_cons.1 hnd).1
        exact this (e ▸ hkr)
      simp only [List.map_append, List.map_cons, List.map_nil, List.mem_append,
        List.mem_singleton, not_or]
      exact ⟨h1, h2⟩

theorem mapGet?_singletons (l : List (String × String)) (k : String) :
    mapGet? (l.map fun kv => (kv.1, [kv.2])) k = (mapGet? l k).map fun x => [x] := by
  induction l with
  | nil => rfl
  | cons kv rest ih =>
    by_cases h : kv.1 = k
    · simp [mapGet?, h]
    · simp [mapGet?, h, ih]

theorem encodeWrite_length_pos (keyEscaped buf value : String) :
    (encodeWrite keyEscaped buf value).length > 0 := by
  unfold encodeWrite
  simp only [String.length_append]
  have : "=".length = 1 := rfl
  omega

theorem encodeWrite_of_nonempty (keyEscaped buf value : String) (h : buf.length > 0) :
    encodeWrite keyEscaped buf value = buf ++ "&" ++ (keyEscaped ++ "=" ++ QueryEscape value) := by
  unfold encodeWrite
  rw [if_pos h]
  simp only [String.append_assoc]

theorem encodeWrite_empty (keyEscaped value : String) :
    encodeWrite keyEscaped "" value = keyEscaped ++ "=" ++ QueryEscape value := by
  unfold encodeWrite
  have h : ¬ ("".length > 0) := by decide
  rw [if_neg h, String.empty_append]

theorem foldl_encodeWrite_go (val : String → String) (ks : List String) :
    ∀ buf : String, buf.length > 0 →
      ks.foldl (fun buf k => encodeWrite (QueryEscape k) buf (val k)) buf
        = String.intercalate.go buf "&"
            (ks.map fun k => QueryEscape k ++ "=" ++ QueryEscape (val k)) := by
  induction ks with
  | nil => intro buf _; rfl
  | cons k rest ih =>
    intro buf hbuf
    simp only [List.foldl_cons, List.map_cons, String.intercalate.go]
    rw [ih _ (encodeWrite_length_pos _ _ _), encodeWrite_of_nonempty _ _ _ hbuf]

/-- The buffer loop of `Values.Encode`, on keys with one value each, joins the
`key=value` items with ampersands. -/
theorem foldl_encodeWrite (val : String → String) (ks : List String) :
    ks.foldl (fun buf k => encodeWrite (QueryEscape k) buf (val k)) ""
      = "&".intercalate (ks.map fun k => QueryEscape k ++ "=" ++ QueryEscape (val k)) := by
  cases ks with
  | nil => rfl
  | cons k rest =>
    simp only [List.foldl_cons, List.map_cons, String.intercalate]
    rw [foldl_encodeWrite_go _ _ _ (encodeWrite_length_pos _ _ _), encodeWrite_empty]

theorem foldl_congr_mem {α β : Type} (f g : α → β → α) (l : List β) :
    ∀ a : α, (∀ a, ∀ b ∈ l, f a b = g a b) → l.foldl f a = l.foldl g a := by
  induction l with
  | nil => intro a _; rfl
  | cons b rest ih =>
    intro a h
    simp only [List.foldl_cons]
    rw [h a b (by simp)]
    exact ih _ (fun a c hc => h a c (by simp [hc]))

/-- A map holding one value per key encodes to the `key=value` items in the order of
the sorted keys, joined by ampersands. -/
theorem Values.encode_singletons (l : List (String × String)) :
    Values.Encode (l.map fun kv => (kv.1, [kv.2]))
      = "&".intercalate (((l.map Prod.fst).insertionSort keyLE).map fun k =>
          QueryEscape k ++ "=" ++ QueryEscape ((mapGet? l k).getD "")) := by
  rw [← foldl_encodeWrite]
  unfold Values.Encode sortedKeys
  have hkeys : (l.map fun kv => (kv.1, [kv.2])).map Prod.fst = l.map Prod.fst := by
    simp [List.map_map, Function.comp_def]
  rw [hkeys]
  by_cases hlen : (l.map fun kv : String × String => (kv.1, [kv.2])).length = 0
  · rw [if_pos hlen]
    have : l = [] := by simpa using hlen
    subst this
    rfl
  · rw [if_neg hlen]
    apply foldl_congr_mem
    intro buf k hk
    have hmem : k ∈ l.map Prod.fst := (List.perm_insertionSort keyLE _).mem_iff.1 hk
    have hsome : ∃ x, mapGet? l k = some x := by
      cases hx : mapGet? l k with
      | none => exact absurd hmem ((mapGet?_eq_none_iff l k).1 hx)
      | some x => exact ⟨x, rfl⟩
    obtain ⟨x, hx⟩ := hsome
    unfold mapGet
    rw [mapGet?_singletons, hx]
    rfl
theorem parsedequestTrace_url (lib : StdLib) (c : Client) (r : request) (now : Int)
    (req : Request) (signed : Option String)
    (h : c.parsedequestTrace lib r now = .ok (req, signed)) :
    ∃ u, lib.urlParse (c.baseURL ++ "/" ++ r.endpoint) = .ok u
      ∧ req.URL.Path = u.Path
      ∧ req.URL.RawQuery = Values.Encode
          (r.params.foldl (fun q kv => Values.Add q kv.1 kv.2) (lib.parseQuery u.RawQuery)) := by
  unfold Client.parsedequestTrace at h
  split at h
  · cases h
  · rename_i req0 hreq0
    obtain ⟨u, hu, hreq⟩ := httpNewRequest_ok _ _ _ _ _ hreq0
    injection h with h
    injection h with h1 _
    subst h1
    subst hreq
    refine ⟨u, hu, ?_, ?_⟩
    · cases c.subAccount <;> cases r.needSigned <;>
        by_cases hm : r.httpMethod = MethodGet <;> simp [hm]
    · cases c.subAccount <;> cases r.needSigned <;>
        by_cases hm : r.httpMethod = MethodGet <;> simp [hm]

theorem insertionSort_keyLE_sorted (l : List String) : (l.insertionSort keyLE).Sorted keyLE := by
  haveI : IsTotal String keyLE := ⟨keyLE_total⟩
  haveI : IsTrans String keyLE := ⟨keyLE_trans⟩
  exact List.sorted_insertionSort keyLE l

/-- C9. The request `parsedequest` builds, the string it signs and hence the
signature are the same for any two iteration orders of the descriptor's parameter
map; and when the URL brings no query of its own, the query string is the list of
the `key=value` items, one per parameter, in ascending order of the keys, joined by
ampersands. (That the same inputs give the same output is what being a function
means.) -/
theorem parsedequest_query_order_independent (lib : StdLib) (c : Client) (r : request)
    (now : Int) (params2 : List (String × String))
    (hnd : (r.params.map Prod.fst).Nodup) (hperm : r.params.Perm params2) :
    c.parsedequestTrace lib r now = c.parsedequestTrace lib { r with params := params2 } now
    ∧ ∀ req signed u, c.parsedequestTrace lib r now = .ok (req, signed) →
        lib.urlParse (c.baseURL ++ "/" ++ r.endpoint) = .ok u →
        lib.parseQuery u.RawQuery = [] →
        ∃ keys : List String,
          keys.Sorted keyLE ∧ keys.Perm (r.params.map Prod.fst)
          ∧ req.URL.RawQuery
            = "&".intercalate (keys.map fun k =>
                QueryEscape k ++ "=" ++ QueryEscape ((mapGet? r.params k).getD "")) := by
  constructor
  · have hE : ∀ v0 : Values,
        Values.Encode (r.params.foldl (fun q kv => Values.Add q kv.1 kv.2) v0)
          = Values.Encode (params2.foldl (fun q kv => Values.Add q kv.1 kv.2) v0) := by
      intro v0
      obtain ⟨h1, h2⟩ := Values.foldl_add_perm hperm hnd v0 v0 (List.Perm.refl _) (fun _ => rfl)
      exact Values.encode_congr _ _ h1 h2
    unfold Client.parsedequestTrace
    simp only [hE, signPayload]
  · intro req signed u h hu hq
    obtain ⟨u1, hu1, _, hraw⟩ := parsedequestTrace_url _ _ _ _ _ _ h
    rw [hu] at hu1
    cases hu1
    refine ⟨(r.params.map Prod.fst).insertionSort keyLE, insertionSort_keyLE_sorted _,
      List.perm_insertionSort keyLE _, ?_⟩
    rw [hraw, hq, Values.foldl_add_fresh _ _ hnd (by simp), List.nil_append,
      Values.encode_singletons]

/-- Witness of C9: the parameters `b=2` and `a=1`, listed in either order, give the
same request, and its query string is `a=1&b=2`. -/
theorem parsedequest_query_order_independent_witness :
    exampleClient.parsedequestTrace goLib
        { httpMethod := "GET", endpoint := "/orders", needSigned := true,
          params := [("b", "2"), ("a", "1")], body := "" } 1700000000000
      = exampleClient.parsedequestTrace goLib
        { httpMethod := "GET", endpoint := "/orders", needSigned := true,
          params := [("a", "1"), ("b", "2")], body := "" } 1700000000000
    ∧ (exampleClient.parsedequestTrace goLib
        { httpMethod := "GET", endpoint := "/orders", needSigned := true,
          params := [("b", "2"), ("a", "1")], body := "" } 1700000000000).map
        (fun out => (out.1.URL.RawQuery, out.2))
      = .ok ("a=1&b=2", some "1700000000000GET/api//orders?a=1&b=2") :=
  ⟨(parsedequest_query_order_independent goLib exampleClient
      { httpMethod := "GET", endpoint := "/orders", needSigned := true,
        params := [("b", "2"), ("a", "1")], body := "" } 1700000000000
      [("a", "1"), ("b", "2")] (by decide) (List.Perm.swap _ _ _)).1,
   by decide!⟩

/-! ## The sub-account header and unauthenticated requests -/

/-- C11. Whether or not the descriptor is authenticated, the built request has the
header `FTX-SUBACCOUNT` with the single value `s` exactly when the client's
sub-account is set to `s`; when the client has no sub-account the header is absent. -/
theorem parsedequest_subaccount_header (lib : StdLib) (c : Client) (r : request) (now : Int)
    (req : Request) (h : c.parsedequest lib r now = .ok req) :
    (∀ s, req.Header.Values "FTX-SUBACCOUNT" = some [s] ↔ c.subAccount = some s)
    ∧ (c.subAccount = none → req.Header.Values "FTX-SUBACCOUNT" = none) := by
  obtain ⟨signed, h⟩ := parsedequest_ok _ _ _ _ _ h
  unfold Client.parsedequestTrace at h
  split at h
  · cases h
  · rename_i req0 hreq0
    obtain ⟨u, _, hreq⟩ := httpNewRequest_ok _ _ _ _ _ hreq0
    subst hreq
    injection h with h
    injection h with h1 _
    subst h1
    have e1 : canonicalMIMEHeaderKey "Content-Type" ≠ canonicalMIMEHeaderKey "FTX-SUBACCOUNT" := by
      decide
    have e2 : canonicalMIMEHeaderKey "FTX-SIGN" ≠ canonicalMIMEHeaderKey "FTX-SUBACCOUNT" := by
      decide
    have e3 : canonicalMIMEHeaderKey "FTX-TS" ≠ canonicalMIMEHeaderKey "FTX-SUBACCOUNT" := by
      decide
    have e4 : canonicalMIMEHeaderKey "FTX-KEY" ≠ canonicalMIMEHeaderKey "FTX-SUBACCOUNT" := by
      decide
    have e5 : Header.Values [] "FTX-SUBACCOUNT" = none := rfl
    cases c.subAccount <;> cases r.needSigned <;> by_cases hm : r.httpMethod = MethodGet <;>
      simp [hm, Header.values_set_ne _ _ _ _ e1, Header.values_set_ne _ _ _ _ e2,
        Header.values_set_ne _ _ _ _ e3, Header.values_set_ne _ _ _ _ e4,
        Header.values_set_self, e5]

/-- Witness of C11: with the sub-account `main` an authenticated and an
unauthenticated request carry `FTX-SUBACCOUNT: main`; without sub-account the header
is absent. -/
theorem parsedequest_subaccount_header_witness :
    exampleSubClient.parsedequest goLib exampleSignedRequest 1700000000000
      = .ok exampleSignedBuilt
    ∧ exampleSignedBuilt.Header.Values "FTX-SUBACCOUNT" = some ["main"]
    ∧ exampleSubClient.parsedequest goLib marketsRequest 1700000000000 = .ok marketsSubBuilt
    ∧ marketsSubBuilt.Header.Values "FTX-SUBACCOUNT" = some ["main"]
    ∧ exampleClient.parsedequest goLib marketsRequest 1700000000000 = .ok marketsBuilt
    ∧ marketsBuilt.Header.Values "FTX-SUBACCOUNT" = none :=
  ⟨by decide!,
    ((parsedequest_subaccount_header goLib exampleSubClient exampleSignedRequest 1700000000000
      exampleSignedBuilt (by decide!)).1 "main").2 rfl,
    by decide!,
    ((parsedequest_subaccount_header goLib exampleSubClient marketsRequest 1700000000000
      marketsSubBuilt (by decide!)).1 "main").2 rfl,
    by decide!,
    (parsedequest_subaccount_header goLib exampleClient marketsRequest 1700000000000
      marketsBuilt (by decide!)).2 rfl⟩

/-- C12. With `needSigned = false` the built request has none of the headers
`FTX-KEY`, `FTX-TS` and `FTX-SIGN`, and `parsedequest` gives the same result (the
same request, or the same error) for any other API key and API secret. -/
theorem parsedequest_unsigned_ignores_credentials (lib : StdLib) (c : Client) (r : request)
    (now : Int) (hs : r.needSigned = false) :
    (∀ req, c.parsedequest lib r now = .ok req →
      req.Header.Values "FTX-KEY" = none ∧ req.Header.Values "FTX-TS" = none
        ∧ req.Header.Values "FTX-SIGN" = none)
    ∧ ∀ apiKey2 apiSecret2 : String,
        Client.parsedequest lib { c with apiKey := apiKey2, apiSecret := apiSecret2 } r now
          = c.parsedequest lib r now := by
  constructor
  · intro req h
    obtain ⟨signed, h⟩ := parsedequest_ok _ _ _ _ _ h
    unfold Client.parsedequestTrace at h
    split at h
    · cases h
    · rename_i req0 hreq0
      obtain ⟨u, _, hreq⟩ := httpNewRequest_ok _ _ _ _ _ hreq0
      subst hreq
      injection h with h
      injection h with h1 _
      subst h1
      have a1 : canonicalMIMEHeaderKey "Content-Type" ≠ canonicalMIMEHeaderKey "FTX-KEY" := by
        decide
      have a2 : canonicalMIMEHeaderKey "Content-Type" ≠ canonicalMIMEHeaderKey "FTX-TS" := by
        decide
      have a3 : canonicalMIMEHeaderKey "Content-Type" ≠ canonicalMIMEHeaderKey "FTX-SIGN" := by
        decide
      have b1 : canonicalMIMEHeaderKey "FTX-SUBACCOUNT" ≠ canonicalMIMEHeaderKey "FTX-KEY" := by
        decide
      have b2 : canonicalMIMEHeaderKey "FTX-SUBACCOUNT" ≠ canonicalMIMEHeaderKey "FTX-TS" := by
        decide
      have b3 : canonicalMIMEHeaderKey "FTX-SUBACCOUNT" ≠ canonicalMIMEHeaderKey "FTX-SIGN" := by
        decide
      have n1 : Header.Values [] "FTX-KEY" = none := rfl
      have n2 : Header.Values [] "FTX-TS" = none := rfl
      have n3 : Header.Values [] "FTX-SIGN" = none := rfl
      cases c.subAccount <;> by_cases hm : r.httpMethod = MethodGet <;>
        simp [hs, hm, Header.values_set_ne _ _ _ _ a1, Header.values_set_ne _ _ _ _ a2,
          Header.values_set_ne _ _ _ _ a3, Header.values_set_ne _ _ _ _ b1,
          Header.values_set_ne _ _ _ _ b2, Header.values_set_ne _ _ _ _ b3, n1, n2, n3]
  · intro apiKey2 apiSecret2
    unfold Client.parsedequest Client.parsedequestTrace
    simp only [hs, Bool.false_eq_true, if_false]

/-- Witness of C12: the unauthenticated descriptor `marketsRequest` gives the same
request, without authentication headers, whatever the credentials. -/
theorem parsedequest_unsigned_ignores_credentials_witness :
    marketsRequest.needSigned = false
    ∧ exampleClient.parsedequest goLib marketsRequest 1700000000000 = .ok marketsBuilt
    ∧ marketsBuilt.Header.Values "FTX-KEY" = none
    ∧ marketsBuilt.Header.Values "FTX-TS" = none
    ∧ marketsBuilt.Header.Values "FTX-SIGN" = none
    ∧ Client.parsedequest goLib
        { exampleClient with apiKey := "other key", apiSecret := "other secret" }
        marketsRequest 1700000000000
      = exampleClient.parsedequest goLib marketsRequest 1700000000000 :=
  ⟨rfl, by decide!,
    ((parsedequest_unsigned_ignores_credentials goLib exampleClient marketsRequest
      1700000000000 rfl).1 marketsBuilt (by decide!)).1,
    by decide, by decide,
    (parsedequest_unsigned_ignores_credentials goLib exampleClient marketsRequest
      1700000000000 rfl).2 "other key" "other secret"⟩

end FtxApi
